import Mathlib

/-!
# UDP client / server wrappers (`udp_client_server.cpp`)

A shallow embedding of the two socket wrapper classes `udp_client` and
`udp_server`, of `udp_helpers::get_local_ip_address`, and of the part of the
host they talk to.

The wrappers are one-line calls into the datagram socket interface, so the
embedding has two layers.

* The *host layer* (`OS`, `sys_socket`, `sys_bind`, `sys_setsockopt_rcvtimeo`,
  `sys_sendto`, `sys_recvfrom`, `inet_addr`, `htons`, `perror`, `printf`) is a
  model of the C library and of the kernel's UDP sockets as POSIX describes
  them and as Linux, the system the program is written for, implements them.  It is an explicit state: a descriptor table, one receive queue per
  socket, and a log of every datagram handed to the transport.
* The *program layer* (`udp_client`, `udp_server`, `udp_helpers`) follows the
  member functions of `udp_client_server.cpp` line by line.

Conventions.  A C `char` is a `Char`; a buffer is the list of the characters
it holds.  `sin_port` and `s_addr` hold the number their (network order)
bytes denote, so `htons`/`htonl` only reduce modulo the field width.  A call
that never returns (a blocking receive on a socket without timeout and with
nothing queued) is `none`.  The class declarations live in
`udp_client_server.h`; the data members are the ones the member functions
use, and a constructor receives the previous contents of the object's
storage (`mem`) because members it does not assign keep those contents.
-/

namespace udp_client_server

/-! ## Constants of the C library -/

/-- Address family of IPv4 sockets. -/
def AF_INET : Nat := 2

/-- The unspecified address family. -/
def AF_UNSPEC : Nat := 0

/-- The wildcard address `0.0.0.0`. -/
def INADDR_ANY : Nat := 0

/-- The value `inet_addr` returns for text it cannot parse (`255.255.255.255`). -/
def INADDR_NONE : Nat := 0xffffffff

/-- Exit status of `exit(EXIT_FAILURE)`. -/
def EXIT_FAILURE : Nat := 1

/-- Largest payload of a UDP datagram over IPv4 (65535 - 8 - 20). -/
def UDP_MAX_PAYLOAD : Nat := 65507

/-- Value of `sizeof(struct sockaddr_in)`. -/
def SIZEOF_SOCKADDR_IN : Nat := 16

/-- The string terminator. -/
def NUL : Char := Char.ofNat 0

/-- Error numbers the modelled calls can set. -/
inductive Errno where
  | OK
  | EBADF
  | EAGAIN
  | EFAULT
  | EINVAL
  | EMFILE
  | EACCES
  | EMSGSIZE
  | EAFNOSUPPORT
  | EADDRINUSE
  | EADDRNOTAVAIL
deriving DecidableEq, Repr

/-- The text `strerror` gives for an error number. -/
def strerror : Errno → String
  | .OK => "Success"
  | .EBADF => "Bad file descriptor"
  | .EAGAIN => "Resource temporarily unavailable"
  | .EFAULT => "Bad address"
  | .EINVAL => "Invalid argument"
  | .EMFILE => "Too many open files"
  | .EACCES => "Permission denied"
  | .EMSGSIZE => "Message too long"
  | .EAFNOSUPPORT => "Address family not supported by protocol"
  | .EADDRINUSE => "Address already in use"
  | .EADDRNOTAVAIL => "Cannot assign requested address"

/-! ## Socket addresses -/

/-- The three meaningful fields of `struct sockaddr_in` (`sin_zero` is padding). -/
structure sockaddr_in where
  sin_family : Nat
  sin_port : Nat
  sin_addr : Nat
deriving DecidableEq, Repr

/-- A `struct sockaddr_in` after `memset(&a, 0, sizeof(a))`. -/
def sockaddr_in.zero : sockaddr_in :=
  { sin_family := 0, sin_port := 0, sin_addr := 0 }

/-- The first eight bytes of a `struct sockaddr_in` in memory: the family in
host order (little endian), then port and address in network order. -/
def sockaddr_in.bytes (a : sockaddr_in) : List Nat :=
  [a.sin_family % 256, a.sin_family / 256 % 256,
   a.sin_port / 256 % 256, a.sin_port % 256,
   a.sin_addr / 16777216 % 256, a.sin_addr / 65536 % 256,
   a.sin_addr / 256 % 256, a.sin_addr % 256]

/-- The structure whose first eight bytes are the given ones. -/
def sockaddr_in.of_bytes (b : List Nat) : sockaddr_in :=
  { sin_family := b.getD 0 0 + 256 * b.getD 1 0,
    sin_port := 256 * b.getD 2 0 + b.getD 3 0,
    sin_addr := 16777216 * b.getD 4 0 + 65536 * b.getD 5 0 + 256 * b.getD 6 0 + b.getD 7 0 }

/-- What a caller's address structure holds after the kernel stored the source
address `src` in it, given the length `len` the caller announced: the whole
address when it fits, otherwise its first `len` bytes over the old contents
("the stored address shall be truncated"). -/
def store_sockaddr (len : Nat) (old src : sockaddr_in) : sockaddr_in :=
  if 8 ≤ len then src
  else sockaddr_in.of_bytes (src.bytes.take len ++ old.bytes.drop len)

/-- The conversion `htons` applied to an `int` argument: the argument is
converted to `uint16_t`, and the result denotes that port on the wire. -/
def htons (port : Int) : Nat := (port % 65536).toNat

/-- Conversion of the `ssize_t` a system call returns to the `int` the wrappers
return. -/
def to_int (r : Int) : Int := (r + 2147483648) % 4294967296 - 2147483648

/-! ## The text to address conversion `inet_addr` -/

/-- Value of a character as a digit in bases up to 16. -/
def digit_value (c : Char) : Option Nat :=
  if c.isDigit then some (c.toNat - 48)
  else if 97 ≤ c.toNat ∧ c.toNat ≤ 102 then some (c.toNat - 87)
  else if 65 ≤ c.toNat ∧ c.toNat ≤ 70 then some (c.toNat - 55)
  else none

/-- The digit loop of `strtoul`: consumes the digits valid in `base`. -/
def strtoul_digits (base : Nat) : List Char → Nat → Nat × List Char
  | [], acc => (acc, [])
  | c :: cs, acc =>
    match digit_value c with
    | some d => if d < base then strtoul_digits base cs (acc * base + d) else (acc, c :: cs)
    | none => (acc, c :: cs)

/-- Is the character a hexadecimal digit. -/
def is_xdigit (c : Char) : Bool := (digit_value c).isSome

/-- The call `strtoul(cp, &endp, 0)` on text that starts with a digit: the base
is taken from the text as in C (`0x` hexadecimal, `0` octal, otherwise
decimal).  Returns the value and the unread text. -/
def strtoul0 (s : List Char) : Nat × List Char :=
  match s with
  | [] => (0, [])
  | c :: rest =>
    if c = Char.ofNat 48 then
      match rest with
      | x :: h :: tl =>
        if (x = Char.ofNat 120 ∨ x = Char.ofNat 88) ∧ is_xdigit h = true then
          strtoul_digits 16 (h :: tl) 0
        else strtoul_digits 8 rest 0
      | _ => strtoul_digits 8 rest 0
    else strtoul_digits 10 s 0

/-- The C library's `isspace` on ASCII. -/
def is_space (c : Char) : Bool :=
  c.toNat = 32 ∨ (9 ≤ c.toNat ∧ c.toNat ≤ 13)

/-- The check `inet_aton` makes on what follows the last number: end of
string, or a white space character (what follows it is not looked at). -/
def trailing_ok : List Char → Bool
  | [] => true
  | c :: _ => c = NUL ∨ is_space c = true

/-- Upper limit of the last number when `n` numbers preceded it. -/
def inet_aton_max (n : Nat) : Nat :=
  match n with
  | 0 => 0xffffffff
  | 1 => 0xffffff
  | 2 => 0xffff
  | _ => 0xff

/-- The address denoted by leading byte values `parts` and a last number `val`. -/
def inet_aton_word (parts : List Nat) (val : Nat) : Nat :=
  parts.getD 0 0 * 16777216 + parts.getD 1 0 * 65536 + parts.getD 2 0 * 256 + val

/-- The loop of `inet_aton`: numbers separated by dots, at most four.  The
first argument bounds the iterations (one per number). -/
def inet_aton_loop : Nat → List Nat → List Char → Option Nat
  | 0, _, _ => none
  | fuel + 1, parts, s =>
    match s with
    | [] => none
    | c :: _ =>
      if c.isDigit = false then none
      else
        let r := strtoul0 s
        if 0xffffffff < r.1 then none
        else
          match r.2 with
          | d :: rest =>
            if d = Char.ofNat 46 then
              if 2 < parts.length ∨ 0xff < r.1 then none
              else inet_aton_loop fuel (parts ++ [r.1]) rest
            else if trailing_ok (d :: rest) = true ∧ r.1 ≤ inet_aton_max parts.length then
              some (inet_aton_word parts r.1)
            else none
          | [] =>
            if r.1 ≤ inet_aton_max parts.length then some (inet_aton_word parts r.1) else none

/-- The C library's `inet_aton`: `a.b.c.d`, `a.b.c`, `a.b` or `a`, every number
in C notation. -/
def inet_aton (s : List Char) : Option Nat := inet_aton_loop 4 [] s

/-- The C library's `inet_addr`: the address, or `INADDR_NONE` for text that
`inet_aton` rejects. -/
def inet_addr (s : List Char) : Nat :=
  match inet_aton s with
  | some a => a
  | none => INADDR_NONE

/-- The characters `std::string::c_str()` shows to a C function: those before
the first terminator. -/
def c_str (s : String) : List Char := s.data.takeWhile (fun c => c ≠ NUL)

/-- The C string stored at the start of a character array. -/
def c_string_at (w : List Char) : List Char := w.takeWhile (fun c => c ≠ NUL)

/-! ## The host: descriptors, sockets, transport -/

/-- A datagram waiting in a socket's receive queue. -/
structure Datagram where
  src : sockaddr_in
  payload : List Char
deriving DecidableEq, Repr

/-- A datagram handed to the transport by `sendto`. -/
structure Packet where
  dst : sockaddr_in
  src : sockaddr_in
  payload : List Char
deriving DecidableEq, Repr

/-- A UDP socket: its local name once bound, the `SO_RCVTIMEO` value in
microseconds (`none`: receives wait forever), and the queue of received
datagrams, oldest first. -/
structure Socket where
  name : Option sockaddr_in
  rcvtimeo : Option Nat
  rcvq : List Datagram
deriving DecidableEq, Repr

/-- What an open descriptor refers to. -/
inductive File where
  | other
  | socket (s : Socket)
deriving DecidableEq, Repr

/-- State of the process and of the host it runs on. -/
structure OS where
  /-- Descriptor table; `none` is a free slot. -/
  fds : List (Option File)
  /-- Descriptors are smaller than this limit (`RLIMIT_NOFILE`). -/
  nofile : Nat
  /-- IPv4 addresses of the host's interfaces, the primary one first. -/
  ifaddrs : List Nat
  /-- UDP endpoints held by other processes of the host. -/
  taken : List sockaddr_in
  /-- Every datagram handed to the transport, oldest first. -/
  wire : List Packet
  errno : Errno
  stdout : List String
  stderr : List String
deriving DecidableEq, Repr

/-- The socket a descriptor refers to, if any. -/
def OS.sock (os : OS) (fd : Int) : Option Socket :=
  if fd < 0 then none
  else
    match os.fds.getD fd.toNat none with
    | some (File.socket s) => some s
    | _ => none

/-- Replace the socket behind a descriptor. -/
def OS.set_sock (os : OS) (fd : Int) (s : Socket) : OS :=
  { os with fds := os.fds.set fd.toNat (some (File.socket s)) }

/-- Index of the first free slot of a descriptor table (its length if none). -/
def first_free : List (Option File) → Nat
  | [] => 0
  | none :: _ => 0
  | some _ :: t => first_free t + 1

/-- The table with descriptor `fd` (at most its length) referring to `f`. -/
def install (fds : List (Option File)) (fd : Nat) (f : File) : List (Option File) :=
  if fd < fds.length then fds.set fd (some f) else fds ++ [some f]

/-- The call `perror(s)`: the text, a colon and the message of `errno`, on
standard error. -/
def perror (os : OS) (s : String) : OS :=
  { os with stderr := os.stderr ++ [s ++ ": " ++ strerror os.errno ++ "\n"] }

/-- Output of a finished `printf` on standard output. -/
def printf (os : OS) (s : String) : OS :=
  { os with stdout := os.stdout ++ [s] }

/-- A freshly created socket. -/
def Socket.fresh : Socket := { name := none, rcvtimeo := none, rcvq := [] }

/-- The call `socket(AF_INET, SOCK_DGRAM, 0)`: the lowest free descriptor, or
`-1` with `EMFILE` when the table is full. -/
def sys_socket (os : OS) : OS × Int :=
  let fd := first_free os.fds
  if fd < os.nofile then
    ({ os with fds := install os.fds fd (File.socket Socket.fresh) }, (fd : Int))
  else ({ os with errno := Errno.EMFILE }, -1)

/-- Do two local names collide: same port, and same address or one of them the
wildcard. -/
def names_clash (a b : sockaddr_in) : Bool :=
  a.sin_port = b.sin_port ∧
    (a.sin_addr = b.sin_addr ∨ a.sin_addr = INADDR_ANY ∨ b.sin_addr = INADDR_ANY)

/-- Local names of the sockets of a descriptor table. -/
def bound_names : List (Option File) → List sockaddr_in
  | [] => []
  | some (File.socket s) :: t =>
    match s.name with
    | some n => n :: bound_names t
    | none => bound_names t
  | _ :: t => bound_names t

/-- Is the endpoint taken by a socket of this process or of another one. -/
def OS.in_use (os : OS) (a : sockaddr_in) : Bool :=
  (bound_names os.fds ++ os.taken).any (fun b => names_clash a b)

/-- The port the kernel picks for a socket that sends before it was bound: the
first free one of the ephemeral range. -/
def OS.ephemeral (os : OS) (addr : Nat) : Option Nat :=
  (List.range' 32768 28232).find?
    (fun p => !os.in_use { sin_family := AF_INET, sin_port := p, sin_addr := addr })

/-- Can a socket be bound to the address: the wildcard, an address of the
host, the broadcast address `255.255.255.255` or a multicast address
(`224.0.0.0` to `239.255.255.255`). -/
def OS.bindable (os : OS) (addr : Nat) : Bool :=
  addr = INADDR_ANY ∨ addr ∈ os.ifaddrs ∨ addr = INADDR_NONE ∨ addr / 268435456 = 14

/-- The call `bind(fd, &a, sizeof(a))`. -/
def sys_bind (os : OS) (fd : Int) (a : sockaddr_in) : OS × Int :=
  match os.sock fd with
  | none => ({ os with errno := Errno.EBADF }, -1)
  | some s =>
    if s.name.isSome then ({ os with errno := Errno.EINVAL }, -1)
    else if a.sin_family ≠ AF_INET then ({ os with errno := Errno.EAFNOSUPPORT }, -1)
    else if os.bindable a.sin_addr = false then
      ({ os with errno := Errno.EADDRNOTAVAIL }, -1)
    else if a.sin_port = 0 then
      match os.ephemeral a.sin_addr with
      | some p => (os.set_sock fd { s with name := some { a with sin_port := p } }, 0)
      | none => ({ os with errno := Errno.EADDRINUSE }, -1)
    else if os.in_use a then ({ os with errno := Errno.EADDRINUSE }, -1)
    else (os.set_sock fd { s with name := some a }, 0)

/-- The call `setsockopt(fd, SOL_SOCKET, SO_RCVTIMEO, &tv, sizeof tv)`; a zero
interval means no timeout. -/
def sys_setsockopt_rcvtimeo (os : OS) (fd : Int) (tv_sec tv_usec : Nat) : OS × Int :=
  match os.sock fd with
  | none => ({ os with errno := Errno.EBADF }, -1)
  | some s =>
    if 1000000 ≤ tv_usec then ({ os with errno := Errno.EINVAL }, -1)
    else
      let t := tv_sec * 1000000 + tv_usec
      (os.set_sock fd { s with rcvtimeo := if t = 0 then none else some t }, 0)

/-- Source address of a datagram leaving a socket named `n` for `dst`: the
bound address, or for a wildcard name the address routing selects (the
destination itself when it is local, else the primary address). -/
def OS.source_addr (os : OS) (n : sockaddr_in) (dst : sockaddr_in) : Nat :=
  if n.sin_addr ≠ INADDR_ANY then n.sin_addr
  else if dst.sin_addr ∈ os.ifaddrs then dst.sin_addr
  else os.ifaddrs.headD INADDR_ANY

/-- Does a local socket named `n` receive datagrams addressed to `dst`. -/
def accepts (n : sockaddr_in) (dst : sockaddr_in) : Bool :=
  n.sin_port = dst.sin_port ∧ (n.sin_addr = dst.sin_addr ∨ n.sin_addr = INADDR_ANY)

/-- Queue a datagram on the first socket of the table that accepts `dst`. -/
def deliver (dst : sockaddr_in) (d : Datagram) : List (Option File) → List (Option File)
  | [] => []
  | some (File.socket s) :: t =>
    match s.name with
    | some n =>
      if accepts n dst = true then some (File.socket { s with rcvq := s.rcvq ++ [d] }) :: t
      else some (File.socket s) :: deliver dst d t
    | none => some (File.socket s) :: deliver dst d t
  | f :: t => f :: deliver dst d t

/-- The call `sendto(fd, msg, size, 0, &dst, sizeof(dst))`.  The first `size`
characters of `msg` leave as one datagram: it is logged on the wire and, when
the destination is an address of this host, queued on the socket bound there.
A socket that was never bound gets an ephemeral port first.  A destination
of another family or with port zero is refused, and so is the broadcast
address, because the program never sets `SO_BROADCAST`. -/
def sys_sendto (os : OS) (fd : Int) (msg : List Char) (size : Nat) (dst : sockaddr_in) :
    OS × Int :=
  match os.sock fd with
  | none => ({ os with errno := Errno.EBADF }, -1)
  | some s =>
    if UDP_MAX_PAYLOAD < size then ({ os with errno := Errno.EMSGSIZE }, -1)
    else if dst.sin_family ≠ AF_INET ∧ dst.sin_family ≠ AF_UNSPEC then
      ({ os with errno := Errno.EAFNOSUPPORT }, -1)
    else if dst.sin_port = 0 then ({ os with errno := Errno.EINVAL }, -1)
    else if dst.sin_addr = INADDR_NONE then ({ os with errno := Errno.EACCES }, -1)
    else if msg.length < size then ({ os with errno := Errno.EFAULT }, -1)
    else
      let name : Option sockaddr_in :=
        match s.name with
        | some n => some n
        | none =>
          (os.ephemeral INADDR_ANY).map
            (fun p => { sin_family := AF_INET, sin_port := p, sin_addr := INADDR_ANY })
      match name with
      | none => ({ os with errno := Errno.EAGAIN }, -1)
      | some n =>
        let os1 := os.set_sock fd { s with name := some n }
        let src : sockaddr_in := { n with sin_addr := os.source_addr n dst }
        let d : Datagram := { src := src, payload := msg.take size }
        let fds := if dst.sin_addr ∈ os.ifaddrs then deliver dst d os1.fds else os1.fds
        ({ os1 with
            fds := fds,
            wire := os.wire ++ [{ dst := dst, src := src, payload := msg.take size }] },
          (size : Int))

/-- Result of a `recvfrom` that returned. -/
structure RecvResult where
  os : OS
  ret : Int
  /-- The caller's buffer after the call. -/
  msg : List Char
  /-- The caller's address structure after the call. -/
  addr : sockaddr_in
  /-- The caller's address length after the call. -/
  len : Nat
deriving DecidableEq, Repr

/-- The call `recvfrom(fd, msg, max_size, MSG_WAITALL, &addr, &len)` on a
datagram socket (where `MSG_WAITALL` has no effect).  The oldest queued
datagram is removed; its first `max_size` characters are stored in the buffer
and counted by the return value, the rest is lost; its source is stored in the
address structure.  The length `len` the caller announces is a `socklen_t`
that the kernel reads as an `int`: from `2^31` on it is negative, and the call
then fails with `EINVAL` after the datagram was taken and its data copied,
storing neither address nor length.  With an empty queue the call fails with
`EAGAIN` once the receive timeout has passed, and never returns (`none`)
without a timeout. -/
def sys_recvfrom (os : OS) (fd : Int) (msg : List Char) (max_size : Nat)
    (addr : sockaddr_in) (len : Nat) : Option RecvResult :=
  match os.sock fd with
  | none => some { os := { os with errno := Errno.EBADF }, ret := -1, msg := msg,
                   addr := addr, len := len }
  | some s =>
    match s.rcvq with
    | [] =>
      match s.rcvtimeo with
      | none => none
      | some _ => some { os := { os with errno := Errno.EAGAIN }, ret := -1, msg := msg,
                         addr := addr, len := len }
    | d :: rest =>
      let os1 := os.set_sock fd { s with rcvq := rest }
      let data := d.payload.take max_size
      if msg.length < data.length then
        some { os := { os1 with errno := Errno.EFAULT }, ret := -1, msg := msg,
               addr := addr, len := len }
      else if 2147483648 ≤ len then
        some { os := { os1 with errno := Errno.EINVAL }, ret := -1,
               msg := data ++ msg.drop data.length, addr := addr, len := len }
      else
        some { os := os1, ret := (data.length : Int), msg := data ++ msg.drop data.length,
               addr := store_sockaddr len addr d.src, len := SIZEOF_SOCKADDR_IN }

/-- A datagram from a remote sender reaches the socket behind `fd` (an event of
the network, not a call of the program). -/
def OS.arrive (os : OS) (fd : Int) (d : Datagram) : OS :=
  match os.sock fd with
  | none => os
  | some s => os.set_sock fd { s with rcvq := s.rcvq ++ [d] }

/-- How a constructor ends: it returns the object, or the process exits. -/
inductive Outcome (α : Type) where
  | ret (os : OS) (a : α)
  | exit (os : OS) (status : Nat)

/-! ## The client (`udp_client`) -/

/-- Data members of `udp_client`. -/
structure udp_client where
  f_socket : Int
  f_port : Int
  f_addr : String
  f_servaddr : sockaddr_in
  f_cliaddr : sockaddr_in
  len : Nat
deriving DecidableEq, Repr

/-- The constructor `udp_client::udp_client(addr, port)` run on storage `mem`. -/
def udp_client.new (mem : udp_client) (os : OS) (addr : String) (port : Int) :
    Outcome udp_client :=
  let r := sys_socket os
  if r.2 < 0 then
    Outcome.exit (perror r.1 "socket creation failed") EXIT_FAILURE
  else
    let servaddr : sockaddr_in :=
      { sockaddr_in.zero with
        sin_family := AF_INET, sin_port := htons port, sin_addr := inet_addr (c_str addr) }
    let os2 := (sys_setsockopt_rcvtimeo r.1 r.2 0 10000).1
    Outcome.ret (printf os2 "UDP client has been created\n")
      { f_socket := r.2, f_port := port, f_addr := addr, f_servaddr := servaddr,
        f_cliaddr := mem.f_cliaddr, len := mem.len }

/-- The getter `udp_client::get_socket`. -/
def udp_client.get_socket (c : udp_client) : Int := c.f_socket

/-- The getter `udp_client::get_port`. -/
def udp_client.get_port (c : udp_client) : Int := c.f_port

/-- The getter `udp_client::get_addr`. -/
def udp_client.get_addr (c : udp_client) : String := c.f_addr

/-- The member `udp_client::send(msg, size)`. -/
def udp_client.send (c : udp_client) (os : OS) (msg : List Char) (size : Nat) : OS × Int :=
  let r := sys_sendto os c.f_socket msg size c.f_servaddr
  (r.1, to_int r.2)

/-- Result of a receive that returned: the host, the object, the caller's
buffer and the returned `int`. -/
structure Received (α : Type) where
  os : OS
  self : α
  msg : List Char
  ret : Int

/-- The member `udp_client::recv(msg, max_size)`. -/
def udp_client.recv (c : udp_client) (os : OS) (msg : List Char) (max_size : Nat) :
    Option (Received udp_client) :=
  (sys_recvfrom os c.f_socket msg max_size c.f_cliaddr c.len).map
    (fun r => { os := r.os, self := { c with f_cliaddr := r.addr, len := r.len },
                msg := r.msg, ret := to_int r.ret })

/-! ## The server (`udp_server`) -/

/-- Data members of `udp_server`. -/
structure udp_server where
  f_socket : Int
  f_port : Int
  f_addr : String
  f_servaddr : sockaddr_in
  f_cliaddr : sockaddr_in
  len : Nat
deriving DecidableEq, Repr

/-- The constructor `udp_server::udp_server(addr, port)` run on storage `mem`. -/
def udp_server.new (mem : udp_server) (os : OS) (addr : String) (port : Int) :
    Outcome udp_server :=
  let r := sys_socket os
  if r.2 < 0 then
    Outcome.exit (perror r.1 "socket creation failed") EXIT_FAILURE
  else
    let servaddr : sockaddr_in :=
      { sin_family := AF_INET, sin_port := htons port, sin_addr := inet_addr (c_str addr) }
    let b := sys_bind r.1 r.2 servaddr
    if b.2 < 0 then
      Outcome.exit (perror b.1 "bind failed") EXIT_FAILURE
    else
      Outcome.ret
        (printf b.1
          ("UDP client has been created on: " ++ String.mk (c_str addr) ++ " : " ++
            toString port ++ "\n"))
        { f_socket := r.2, f_port := port, f_addr := addr, f_servaddr := servaddr,
          f_cliaddr := mem.f_cliaddr, len := SIZEOF_SOCKADDR_IN }

/-- The getter `udp_server::get_socket`. -/
def udp_server.get_socket (s : udp_server) : Int := s.f_socket

/-- The getter `udp_server::get_port`. -/
def udp_server.get_port (s : udp_server) : Int := s.f_port

/-- The getter `udp_server::get_addr`. -/
def udp_server.get_addr (s : udp_server) : String := s.f_addr

/-- The C library's `inet_ntoa`: dotted decimal text of an address. -/
def inet_ntoa (a : Nat) : String :=
  toString (a / 16777216 % 256) ++ "." ++ toString (a / 65536 % 256) ++ "." ++
    toString (a / 256 % 256) ++ "." ++ toString (a % 256)

/-- The member `udp_server::get_client_addr`. -/
def udp_server.get_client_addr (s : udp_server) : String := inet_ntoa s.f_cliaddr.sin_addr

/-- The member `udp_server::recv(msg, max_size)`. -/
def udp_server.recv (s : udp_server) (os : OS) (msg : List Char) (max_size : Nat) :
    Option (Received udp_server) :=
  (sys_recvfrom os s.f_socket msg max_size s.f_cliaddr s.len).map
    (fun r => { os := r.os, self := { s with f_cliaddr := r.addr, len := r.len },
                msg := r.msg, ret := to_int r.ret })

/-- The member `udp_server::reply(msg, size)`. -/
def udp_server.reply (s : udp_server) (os : OS) (msg : List Char) (size : Nat) : OS × Int :=
  let r := sys_sendto os s.f_socket msg size s.f_cliaddr
  (r.1, to_int r.2)

/-- The member `udp_server::timed_recv(msg, max_size, max_wait_ms)`: its body is
`return 0;`. -/
def udp_server.timed_recv (s : udp_server) (os : OS) (msg : List Char) (_max_size : Nat)
    (_max_wait_ms : Int) : Received udp_server :=
  { os := os, self := s, msg := msg, ret := 0 }

/-! ## The helper (`udp_helpers`) -/

/-- Size of the static array `w` of `get_local_ip_address`. -/
def W_SIZE : Nat := 128

/-- The static array `w` when the program starts (static storage is zeroed). -/
def w_initial : List Char := List.replicate W_SIZE NUL

/-- The loop `while((c=getc(f))!=EOF) i+=sprintf(w+i,"%c",c);` over the
characters the command still has to deliver: each `sprintf` stores the
character at `w[i]` and a terminator at `w[i+1]` and returns `1`.  A store
outside the array is undefined (`none`). -/
def udp_helpers.read_loop (w : List Char) (i : Nat) : List Char → Option (List Char)
  | [] => some w
  | c :: cs =>
    if i + 1 < w.length then udp_helpers.read_loop ((w.set i c).set (i + 1) NUL) (i + 1) cs
    else none

/-- The function `udp_helpers::get_local_ip_address()` given the contents of
its static array and the text the command pipeline writes to the pipe
(`out`).  Returns the new contents of the array, which the returned pointer
refers to. -/
def udp_helpers.get_local_ip_address (w : List Char) (out : List Char) :
    Option (List Char) :=
  udp_helpers.read_loop w 0 out

/-! ## Call sequences and the vocabulary of the properties -/

/-- What can happen to a client after its construction: a call of `send`, a
call of `recv`, or the arrival of a datagram at its socket. -/
inductive ClientOp where
  | send (msg : List Char) (size : Nat)
  | recv (msg : List Char) (max_size : Nat)
  | arrive (d : Datagram)
deriving DecidableEq, Repr

/-- Run a sequence of client operations; `none` if a `recv` never returns. -/
def udp_client.run : List ClientOp → udp_client → OS → Option (OS × udp_client)
  | [], c, os => some (os, c)
  | ClientOp.send msg size :: ops, c, os => udp_client.run ops c (c.send os msg size).1
  | ClientOp.recv msg max_size :: ops, c, os =>
    match c.recv os msg max_size with
    | none => none
    | some r => udp_client.run ops r.self r.os
  | ClientOp.arrive d :: ops, c, os => udp_client.run ops c (os.arrive c.f_socket d)

/-- Is the entry of a descriptor table a socket that receives datagrams
addressed to `dst`. -/
def entry_accepts (dst : sockaddr_in) : Option File → Bool
  | some (File.socket s) =>
    match s.name with
    | some n => accepts n dst
    | none => false
  | _ => false

/-- Index of the first socket of a descriptor table that receives datagrams
addressed to `dst`. -/
def first_accepting (dst : sockaddr_in) : List (Option File) → Option Nat
  | [] => none
  | f :: t =>
    if entry_accepts dst f = true then some 0 else (first_accepting dst t).map (· + 1)

/-- Pieces of a text between its dots. -/
def split_dots : List Char → List (List Char)
  | [] => [[]]
  | c :: cs =>
    if c = Char.ofNat 46 then [] :: split_dots cs
    else
      match split_dots cs with
      | [] => [[c]]
      | p :: ps => (c :: p) :: ps

/-- One to three decimal digits that denote a number up to 255. -/
def is_octet (p : List Char) : Bool :=
  p ≠ [] ∧ p.length ≤ 3 ∧ p.all Char.isDigit = true ∧
    p.foldl (fun n c => 10 * n + (c.toNat - 48)) 0 ≤ 255

/-- Dotted-quad IPv4 text: four octets in decimal separated by dots. -/
def is_dotted_quad (s : List Char) : Bool :=
  (split_dots s).length = 4 ∧ (split_dots s).all is_octet = true

/-- Text of a command output that lists the given candidates, one per line. -/
def query_output (candidates : List (List Char)) : List Char :=
  candidates.flatMap (fun a => a ++ [Char.ofNat 10])

/-! ## A concrete host for the worked examples -/

/-- A process with the three standard descriptors on a host whose addresses are
`192.168.0.18` and `127.0.0.1`. -/
def demo_os : OS :=
  { fds := [some File.other, some File.other, some File.other],
    nofile := 1024,
    ifaddrs := [3232235538, 2130706433],
    taken := [],
    wire := [],
    errno := Errno.OK,
    stdout := [],
    stderr := [] }

/-- Zeroed storage for a server object. -/
def demo_server_mem : udp_server :=
  { f_socket := 0, f_port := 0, f_addr := "", f_servaddr := sockaddr_in.zero,
    f_cliaddr := sockaddr_in.zero, len := 0 }

/-- Zeroed storage for a client object. -/
def demo_client_mem : udp_client :=
  { f_socket := 0, f_port := 0, f_addr := "", f_servaddr := sockaddr_in.zero,
    f_cliaddr := sockaddr_in.zero, len := 0 }

/-- Storage for a server object that still holds what was there before: the
bytes at `f_cliaddr` read as `192.168.0.18`, port 4660. -/
def stale_server_mem : udp_server :=
  { f_socket := 0, f_port := 0, f_addr := "", f_servaddr := sockaddr_in.zero,
    f_cliaddr := { sin_family := 2, sin_port := 4660, sin_addr := 3232235538 }, len := 0 }

/-- The host a constructor leaves behind, whichever way it ended. -/
def Outcome.os {α : Type} : Outcome α → OS
  | Outcome.ret os _ => os
  | Outcome.exit os _ => os

/-- The object a constructor returned (`dflt` if the process exited). -/
def Outcome.get {α : Type} (o : Outcome α) (dflt : α) : α :=
  match o with
  | Outcome.ret _ a => a
  | Outcome.exit _ _ => dflt

/-- The address text the driver's server gets: what `get_local_ip_address`
returns when the command prints the one line `192.168.0.18`. -/
def demo_local_ip : String :=
  String.mk (c_string_at
    ((udp_helpers.get_local_ip_address w_initial "192.168.0.18\n".data).getD w_initial))

/-- The driver's `udp_server server(get_local_ip_address(), port)`. -/
def demo_server : udp_server :=
  (udp_server.new demo_server_mem demo_os demo_local_ip 1234).get demo_server_mem

/-- The host after the driver constructed its server. -/
def demo_server_os : OS := (udp_server.new demo_server_mem demo_os demo_local_ip 1234).os

/-- The driver's `udp_client client(client_ip_addr, port)`. -/
def demo_client : udp_client :=
  (udp_client.new demo_client_mem demo_server_os "192.168.0.18" 1234).get demo_client_mem

/-- The host after the driver constructed its server and its client. -/
def demo_client_os : OS :=
  (udp_client.new demo_client_mem demo_server_os "192.168.0.18" 1234).os

/-- A remote sender A, `10.0.0.1:40000`. -/
def demo_sender_a : sockaddr_in := { sin_family := 2, sin_port := 40000, sin_addr := 167772161 }

/-- Storage for a client object that still holds what was there before: the
four bytes at `len` are all `0xff`. -/
def stale_client_mem : udp_client :=
  { f_socket := 0, f_port := 0, f_addr := "", f_servaddr := sockaddr_in.zero,
    f_cliaddr := sockaddr_in.zero, len := 4294967295 }

/-- The text the driver sends, `"Hello from CPP UDP client!\n"`. -/
def data_to_send : List Char := "Hello from CPP UDP client!\n".data

/-- The text the driver replies with, `"Reply from CPP UDP server!\n"`. -/
def reply_data : List Char := "Reply from CPP UDP server!\n".data

/-- The driver's receive buffer `char data_to_recv[1024]`, zeroed. -/
def data_to_recv : List Char := List.replicate 1024 NUL

/-! ## Facts about the host model -/

set_option maxRecDepth 8000

theorem sock_nonneg {os : OS} {fd : Int} {sk : Socket} (h : os.sock fd = some sk) : 0 ≤ fd := by
  unfold OS.sock at h
  by_contra hc
  have : fd < 0 := by omega
  simp [this] at h

theorem sock_lt_length {os : OS} {fd : Int} {sk : Socket} (h : os.sock fd = some sk) :
    fd.toNat < os.fds.length := by
  unfold OS.sock at h
  by_contra hc
  have hge : os.fds.length ≤ fd.toNat := by omega
  have : os.fds.getD fd.toNat none = none := by
    simp [List.getD_eq_getElem?_getD, List.getElem?_eq_none hge]
  rw [this] at h
  split at h <;> simp at h

theorem sock_eq_getD {os : OS} {fd : Int} {sk : Socket} (h : os.sock fd = some sk) :
    os.fds.getD fd.toNat none = some (File.socket sk) := by
  unfold OS.sock at h
  split at h
  · simp at h
  · split at h
    · next s hs => simp at h; rw [hs, h]
    · simp at h

theorem sock_set_sock_same {os : OS} {fd : Int} {sk : Socket} (s1 : Socket)
    (h : os.sock fd = some sk) : (os.set_sock fd s1).sock fd = some s1 := by
  have h0 := sock_nonneg h
  have hl := sock_lt_length h
  unfold OS.sock OS.set_sock
  have : ¬ fd < 0 := by omega
  simp [this, List.getD_eq_getElem?_getD, List.getElem?_set, hl]

theorem sock_set_sock_other {os : OS} {fd fd1 : Int} (s1 : Socket)
    (h0 : 0 ≤ fd) (h1 : 0 ≤ fd1) (hne : fd ≠ fd1) : (os.set_sock fd s1).sock fd1 = os.sock fd1 := by
  unfold OS.sock OS.set_sock
  have hn : fd.toNat ≠ fd1.toNat := by omega
  simp [List.getD_eq_getElem?_getD, List.getElem?_set, hn]

theorem to_int_small (n : Nat) (h : n ≤ UDP_MAX_PAYLOAD) : to_int (n : Int) = n := by
  unfold to_int
  unfold UDP_MAX_PAYLOAD at h
  omega

theorem to_int_neg_one : to_int (-1) = -1 := by decide

/-- What `recvfrom` does when a datagram is queued and the buffer can hold the
part asked for. -/
theorem sys_recvfrom_queued {os : OS} {fd : Int} {sk : Socket} {d : Datagram}
    {rest : List Datagram} (msg : List Char) (max_size : Nat) (addr : sockaddr_in) (len : Nat)
    (hsock : os.sock fd = some sk) (hq : sk.rcvq = d :: rest)
    (hbuf : (d.payload.take max_size).length ≤ msg.length) (hlen : len < 2147483648) :
    sys_recvfrom os fd msg max_size addr len =
      some { os := os.set_sock fd { sk with rcvq := rest },
             ret := ((d.payload.take max_size).length : Int),
             msg := d.payload.take max_size ++ msg.drop (d.payload.take max_size).length,
             addr := store_sockaddr len addr d.src,
             len := SIZEOF_SOCKADDR_IN } := by
  unfold sys_recvfrom
  simp only [hsock, hq]
  rw [if_neg (by omega), if_neg (by omega)]

/-- What `recvfrom` does when a datagram is queued, the buffer can hold the part
asked for, and the announced address length is negative to the kernel. -/
theorem sys_recvfrom_bad_len {os : OS} {fd : Int} {sk : Socket} {d : Datagram}
    {rest : List Datagram} (msg : List Char) (max_size : Nat) (addr : sockaddr_in) (len : Nat)
    (hsock : os.sock fd = some sk) (hq : sk.rcvq = d :: rest)
    (hbuf : (d.payload.take max_size).length ≤ msg.length) (hlen : 2147483648 ≤ len) :
    sys_recvfrom os fd msg max_size addr len =
      some { os := { os.set_sock fd { sk with rcvq := rest } with errno := Errno.EINVAL },
             ret := -1,
             msg := d.payload.take max_size ++ msg.drop (d.payload.take max_size).length,
             addr := addr, len := len } := by
  unfold sys_recvfrom
  simp only [hsock, hq]
  rw [if_neg (by omega), if_pos hlen]

/-- What `recvfrom` does when nothing is queued and a receive timeout is set. -/
theorem sys_recvfrom_timeout {os : OS} {fd : Int} {sk : Socket} {t : Nat}
    (msg : List Char) (max_size : Nat) (addr : sockaddr_in) (len : Nat)
    (hsock : os.sock fd = some sk) (hq : sk.rcvq = []) (ht : sk.rcvtimeo = some t) :
    sys_recvfrom os fd msg max_size addr len =
      some { os := { os with errno := Errno.EAGAIN }, ret := -1, msg := msg,
             addr := addr, len := len } := by
  unfold sys_recvfrom
  simp only [hsock, hq, ht]

theorem set_sock_wire (os : OS) (fd : Int) (s : Socket) :
    (os.set_sock fd s).wire = os.wire := rfl

/-! ## Truncation on receive -/

/-- Truncation where the announced address length is sound.  A receive whose
capacity `max_size` is smaller than the queued datagram `d`, made by a server
or a client whose `len` is below `2^31`, reports no error: it returns
`max_size`, the buffer holds the first `max_size` characters of `d` followed by
its old contents, `errno` is untouched, and the socket's queue afterwards
holds only the datagrams that came after `d`.  Made by a client whose `len` is
`2^31` or more, the same receive takes the datagram and returns `-1` with
`EINVAL`. -/
theorem recv_truncates_by_len (os : OS) (fd : Int) (sk : Socket) (d : Datagram)
    (rest : List Datagram) (msg : List Char) (max_size : Nat)
    (hsock : os.sock fd = some sk) (hq : sk.rcvq = d :: rest)
    (hlt : max_size < d.payload.length) (hd : d.payload.length ≤ UDP_MAX_PAYLOAD)
    (hbuf : max_size ≤ msg.length) :
    (∀ s : udp_server, s.f_socket = fd → s.len < 2147483648 →
      ∃ r, s.recv os msg max_size = some r ∧ r.ret = (max_size : Int) ∧ 0 ≤ r.ret ∧
        r.msg = d.payload.take max_size ++ msg.drop max_size ∧
        r.os.errno = os.errno ∧ r.os.sock fd = some { sk with rcvq := rest }) ∧
    (∀ c : udp_client, c.f_socket = fd → c.len < 2147483648 →
      ∃ r, c.recv os msg max_size = some r ∧ r.ret = (max_size : Int) ∧ 0 ≤ r.ret ∧
        r.msg = d.payload.take max_size ++ msg.drop max_size ∧
        r.os.errno = os.errno ∧ r.os.sock fd = some { sk with rcvq := rest }) ∧
    (∀ c : udp_client, c.f_socket = fd → 2147483648 ≤ c.len →
      ∃ r, c.recv os msg max_size = some r ∧ r.ret = -1 ∧
        r.os.errno = Errno.EINVAL ∧ r.os.sock fd = some { sk with rcvq := rest }) := by
  have hlen : (d.payload.take max_size).length = max_size := by
    simp [List.length_take]; omega
  have hsmall : max_size ≤ UDP_MAX_PAYLOAD := by omega
  refine ⟨?_, ?_, ?_⟩
  · intro s hs hl
    subst hs
    have h := sys_recvfrom_queued msg max_size s.f_cliaddr s.len hsock hq (by omega) hl
    refine ⟨_, by simp only [udp_server.recv, h, Option.map_some']; rfl, ?_, ?_, ?_, ?_, ?_⟩
    · simp only [hlen]; exact to_int_small _ hsmall
    · simp only [hlen, to_int_small _ hsmall]; omega
    · simp only [hlen]
    · rfl
    · exact sock_set_sock_same _ hsock
  · intro c hc hl
    subst hc
    have h := sys_recvfrom_queued msg max_size c.f_cliaddr c.len hsock hq (by omega) hl
    refine ⟨_, by simp only [udp_client.recv, h, Option.map_some']; rfl, ?_, ?_, ?_, ?_, ?_⟩
    · simp only [hlen]; exact to_int_small _ hsmall
    · simp only [hlen, to_int_small _ hsmall]; omega
    · simp only [hlen]
    · rfl
    · exact sock_set_sock_same _ hsock
  · intro c hc hl
    subst hc
    have h := sys_recvfrom_bad_len msg max_size c.f_cliaddr c.len hsock hq (by omega) hl
    refine ⟨_, by simp only [udp_client.recv, h, Option.map_some']; rfl, ?_, rfl, ?_⟩
    · exact to_int_neg_one
    · exact sock_set_sock_same _ hsock

/-- C3 (the code at the failing input).  The driver's exchange with the client
object constructed in storage whose `len` bytes are all `0xff` (the client
constructor never assigns `len`, the server constructor does) and the reply
received with capacity 5: the 27 character reply is queued on the client's
socket, and `recv` takes it from the queue but returns `-1` with `EINVAL`
instead of `5`.  The same object with `len` set as the server constructor
sets it returns `5` and the first five characters. -/
theorem client_recv_stale_len_fails :
    ∃ os1 c os2 rs os3 r r1,
      udp_client.new stale_client_mem demo_server_os "192.168.0.18" 1234 = Outcome.ret os1 c ∧
      c.len = 4294967295 ∧
      c.send os1 data_to_send 27 = (os2, 27) ∧
      demo_server.recv os2 data_to_recv 1024 = some rs ∧
      rs.self.reply rs.os reply_data 27 = (os3, 27) ∧
      (os3.sock c.f_socket).map (fun k => k.rcvq.map (fun d => d.payload)) =
        some [reply_data] ∧
      c.recv os3 data_to_recv 5 = some r ∧
      r.ret = -1 ∧ r.os.errno = Errno.EINVAL ∧
      (r.os.sock c.f_socket).map (fun k => k.rcvq) = some [] ∧
      ({ c with len := SIZEOF_SOCKADDR_IN } : udp_client).recv os3 data_to_recv 5 = some r1 ∧
      r1.ret = 5 ∧ r1.msg = reply_data.take 5 ++ data_to_recv.drop 5 :=
  ⟨_, _, _, _, _, _, _, rfl, by decide, rfl, rfl, rfl, by decide, rfl, by decide, by decide,
    by decide, rfl, by decide, by decide⟩

/-! ## The bounded-wait receive -/

/-- C5 (the code at the failing input).  On a bound server with nothing queued,
`timed_recv` with a 100 ms limit returns `0`, not `-1`, and leaves `errno`
as it was (`OK`, not `EAGAIN`). -/
theorem timed_recv_returns_zero :
    ∃ os s, udp_server.new demo_server_mem demo_os "127.0.0.1" 1234 = Outcome.ret os s ∧
      (os.sock s.f_socket).map (fun k => k.rcvq) = some [] ∧
      (s.timed_recv os data_to_recv 1024 100).ret = 0 ∧
      (s.timed_recv os data_to_recv 1024 100).ret ≠ -1 ∧
      (s.timed_recv os data_to_recv 1024 100).os.errno = Errno.OK := by
  refine ⟨_, _, rfl, ?_, ?_, ?_, ?_⟩ <;> decide

/-! ## Construction -/

theorem first_free_le (fds : List (Option File)) : first_free fds ≤ fds.length := by
  induction fds with
  | nil => simp [first_free]
  | cons f t ih => cases f <;> simp [first_free]; omega

theorem install_first_free (fds : List (Option File)) (f : File) :
    (install fds (first_free fds) f).getD (first_free fds) none = some f := by
  induction fds with
  | nil => simp [first_free, install]
  | cons x t ih =>
    cases x with
    | none => simp [first_free, install]
    | some y =>
      simp only [first_free, install, List.length_cons] at ih ⊢
      by_cases h : first_free t < t.length
      · simp only [h, if_true] at ih
        simp [h, ih]
      · simp only [h, if_false] at ih
        have hle := first_free_le t
        have he : first_free t = t.length := by omega
        simp [he, List.getD_eq_getElem?_getD]

/-- When `socket()` succeeds the returned descriptor is a fresh socket. -/
theorem sys_socket_ok (os : OS) (h : ¬ (sys_socket os).2 < 0) :
    (sys_socket os).1.sock (sys_socket os).2 = some Socket.fresh ∧
      (sys_socket os).1.stderr = os.stderr := by
  unfold sys_socket at h ⊢
  by_cases hf : first_free os.fds < os.nofile
  · rw [if_pos hf]
    refine ⟨?_, rfl⟩
    unfold OS.sock
    have : ¬ ((first_free os.fds : Nat) : Int) < 0 := by omega
    simp only [this, if_false, Int.toNat_ofNat, install_first_free]
  · simp [hf] at h

/-- When `socket()` fails it returns `-1`, sets `errno` and touches nothing else. -/
theorem sys_socket_fail (os : OS) (h : (sys_socket os).2 < 0) :
    sys_socket os = ({ os with errno := Errno.EMFILE }, -1) := by
  unfold sys_socket at h ⊢
  by_cases hf : first_free os.fds < os.nofile
  · simp only [hf, if_true] at h
    omega
  · simp [hf]

/-- A successful `bind` names the socket: with the address asked for, and with
the port asked for unless that was zero. -/
theorem sys_bind_ok {os : OS} {fd : Int} {sk : Socket} (a : sockaddr_in)
    (hsock : os.sock fd = some sk) (h : ¬ (sys_bind os fd a).2 < 0) :
    ∃ n, (sys_bind os fd a).1 = os.set_sock fd { sk with name := some n } ∧
      n.sin_addr = a.sin_addr ∧ (a.sin_port ≠ 0 → n = a) := by
  unfold sys_bind at h ⊢
  simp only [hsock] at h ⊢
  by_cases h1 : sk.name.isSome = true
  · rw [if_pos h1] at h; simp at h
  rw [if_neg h1] at h ⊢
  by_cases h2 : a.sin_family ≠ AF_INET
  · rw [if_pos h2] at h; simp at h
  rw [if_neg h2] at h ⊢
  by_cases h3 : os.bindable a.sin_addr = false
  · rw [if_pos h3] at h; simp at h
  rw [if_neg h3] at h ⊢
  by_cases h4 : a.sin_port = 0
  · rw [if_pos h4] at h ⊢
    cases hp : os.ephemeral a.sin_addr with
    | none => simp [hp] at h
    | some p => exact ⟨_, rfl, rfl, fun hne => absurd h4 hne⟩
  · rw [if_neg h4] at h ⊢
    by_cases h5 : os.in_use a = true
    · rw [if_pos h5] at h; simp at h
    · rw [if_neg h5]
      exact ⟨a, rfl, rfl, fun _ => rfl⟩

/-- A failing `bind` returns `-1` and leaves everything but `errno` alone. -/
theorem sys_bind_fail (os : OS) (fd : Int) (a : sockaddr_in) (h : (sys_bind os fd a).2 < 0) :
    ∃ e, sys_bind os fd a = ({ os with errno := e }, -1) := by
  unfold sys_bind at h ⊢
  cases hs : os.sock fd with
  | none => exact ⟨_, rfl⟩
  | some sk =>
    simp only [hs] at h ⊢
    by_cases h1 : sk.name.isSome = true
    · rw [if_pos h1]; exact ⟨_, rfl⟩
    rw [if_neg h1] at h ⊢
    by_cases h2 : a.sin_family ≠ AF_INET
    · rw [if_pos h2]; exact ⟨_, rfl⟩
    rw [if_neg h2] at h ⊢
    by_cases h3 : os.bindable a.sin_addr = false
    · rw [if_pos h3]; exact ⟨_, rfl⟩
    rw [if_neg h3] at h ⊢
    by_cases h4 : a.sin_port = 0
    · rw [if_pos h4] at h ⊢
      cases hp : os.ephemeral a.sin_addr with
      | none => exact ⟨_, rfl⟩
      | some p => simp [hp] at h
    · rw [if_neg h4] at h ⊢
      by_cases h5 : os.in_use a = true
      · rw [if_pos h5]; exact ⟨_, rfl⟩
      · rw [if_neg h5] at h; simp at h

/-- With the endpoint already in use (and a port other than zero asked for),
`bind` on a fresh socket fails. -/
theorem sys_bind_in_use {os : OS} {fd : Int} (a : sockaddr_in)
    (hsock : os.sock fd = some Socket.fresh) (hfam : a.sin_family = AF_INET)
    (hport : a.sin_port ≠ 0) (huse : os.in_use a = true) :
    sys_bind os fd a =
      ({ os with errno := if os.bindable a.sin_addr = false
          then Errno.EADDRNOTAVAIL else Errno.EADDRINUSE }, -1) := by
  unfold sys_bind
  simp only [hsock]
  have h1 : ¬ (Socket.fresh.name.isSome = true) := by simp [Socket.fresh]
  have h2 : ¬ (a.sin_family ≠ AF_INET) := by simp [hfam]
  rw [if_neg h1, if_neg h2]
  by_cases h3 : os.bindable a.sin_addr = false
  · rw [if_pos h3, if_pos h3]
  · rw [if_neg h3, if_neg h3, if_neg hport, if_pos huse]

/-- Setting the receive timeout of a fresh socket to 10 ms. -/
theorem sys_setsockopt_fresh {os : OS} {fd : Int} (hsock : os.sock fd = some Socket.fresh) :
    sys_setsockopt_rcvtimeo os fd 0 10000 =
      (os.set_sock fd { name := none, rcvtimeo := some 10000, rcvq := [] }, 0) := by
  unfold sys_setsockopt_rcvtimeo
  simp only [hsock]
  rfl

/-- The client constructor when `socket()` fails. -/
theorem udp_client_new_fail (mem : udp_client) (os : OS) (addr : String) (port : Int)
    (h : (sys_socket os).2 < 0) :
    udp_client.new mem os addr port =
      Outcome.exit (perror { os with errno := Errno.EMFILE } "socket creation failed")
        EXIT_FAILURE := by
  unfold udp_client.new
  dsimp only
  rw [if_pos h, sys_socket_fail os h]

/-- The client constructor when `socket()` succeeds. -/
theorem udp_client_new_ok (mem : udp_client) (os : OS) (addr : String) (port : Int)
    (h : ¬ (sys_socket os).2 < 0) :
    udp_client.new mem os addr port =
      Outcome.ret
        (printf ((sys_socket os).1.set_sock (sys_socket os).2
          { name := none, rcvtimeo := some 10000, rcvq := [] }) "UDP client has been created\n")
        { f_socket := (sys_socket os).2, f_port := port, f_addr := addr,
          f_servaddr :=
            { sin_family := AF_INET, sin_port := htons port, sin_addr := inet_addr (c_str addr) },
          f_cliaddr := mem.f_cliaddr, len := mem.len } := by
  unfold udp_client.new
  simp only [h, if_false, sys_setsockopt_fresh (sys_socket_ok os h).1]

/-- The server constructor when `socket()` fails. -/
theorem udp_server_new_fail_socket (mem : udp_server) (os : OS) (addr : String) (port : Int)
    (h : (sys_socket os).2 < 0) :
    udp_server.new mem os addr port =
      Outcome.exit (perror { os with errno := Errno.EMFILE } "socket creation failed")
        EXIT_FAILURE := by
  unfold udp_server.new
  dsimp only
  rw [if_pos h, sys_socket_fail os h]

/-- The server constructor when `socket()` succeeds and `bind` fails. -/
theorem udp_server_new_fail_bind (mem : udp_server) (os : OS) (addr : String) (port : Int)
    (h : ¬ (sys_socket os).2 < 0)
    (hb : (sys_bind (sys_socket os).1 (sys_socket os).2
      { sin_family := AF_INET, sin_port := htons port,
        sin_addr := inet_addr (c_str addr) }).2 < 0) :
    udp_server.new mem os addr port =
      Outcome.exit
        (perror (sys_bind (sys_socket os).1 (sys_socket os).2
          { sin_family := AF_INET, sin_port := htons port,
            sin_addr := inet_addr (c_str addr) }).1 "bind failed")
        EXIT_FAILURE := by
  unfold udp_server.new
  simp only [h, if_false, hb, if_true]

/-- The server constructor when `socket()` and `bind` succeed. -/
theorem udp_server_new_ok (mem : udp_server) (os : OS) (addr : String) (port : Int)
    (h : ¬ (sys_socket os).2 < 0)
    (hb : ¬ (sys_bind (sys_socket os).1 (sys_socket os).2
      { sin_family := AF_INET, sin_port := htons port,
        sin_addr := inet_addr (c_str addr) }).2 < 0) :
    udp_server.new mem os addr port =
      Outcome.ret
        (printf (sys_bind (sys_socket os).1 (sys_socket os).2
          { sin_family := AF_INET, sin_port := htons port,
            sin_addr := inet_addr (c_str addr) }).1
          ("UDP client has been created on: " ++ String.mk (c_str addr) ++ " : " ++
            toString port ++ "\n"))
        { f_socket := (sys_socket os).2, f_port := port, f_addr := addr,
          f_servaddr :=
            { sin_family := AF_INET, sin_port := htons port, sin_addr := inet_addr (c_str addr) },
          f_cliaddr := mem.f_cliaddr, len := SIZEOF_SOCKADDR_IN } := by
  unfold udp_server.new
  simp only [h, if_false, hb]

theorem printf_sock (os : OS) (t : String) (fd : Int) : (printf os t).sock fd = os.sock fd := rfl

/-- C10.  Construction ends in `exit(EXIT_FAILURE)` exactly when a setup step
fails: for the client when `socket()` fails, for the server when `socket()`
or `bind()` fails.  In every other case the constructor returns an object
whose descriptor is an open UDP socket: the client's with the 10 ms receive
timeout and the destination made from the arguments, the server's bound to
the address (and, unless it was zero, the port) made from the arguments. -/
theorem construction_fatal_iff_setup_fails (os : OS) (addr : String) (port : Int) :
    (∀ mem : udp_client,
      ((∃ os1, udp_client.new mem os addr port = Outcome.exit os1 EXIT_FAILURE) ↔
        (sys_socket os).2 < 0) ∧
      (¬ (sys_socket os).2 < 0 →
        ∃ os1 c, udp_client.new mem os addr port = Outcome.ret os1 c ∧
          os1.sock c.f_socket = some { name := none, rcvtimeo := some 10000, rcvq := [] } ∧
          c.f_servaddr = { sin_family := AF_INET, sin_port := htons port,
                           sin_addr := inet_addr (c_str addr) } ∧
          c.get_addr = addr ∧ c.get_port = port)) ∧
    (∀ mem : udp_server,
      ((∃ os1, udp_server.new mem os addr port = Outcome.exit os1 EXIT_FAILURE) ↔
        ((sys_socket os).2 < 0 ∨
          (sys_bind (sys_socket os).1 (sys_socket os).2
            { sin_family := AF_INET, sin_port := htons port,
              sin_addr := inet_addr (c_str addr) }).2 < 0)) ∧
      (¬ ((sys_socket os).2 < 0 ∨
          (sys_bind (sys_socket os).1 (sys_socket os).2
            { sin_family := AF_INET, sin_port := htons port,
              sin_addr := inet_addr (c_str addr) }).2 < 0) →
        ∃ os1 s n, udp_server.new mem os addr port = Outcome.ret os1 s ∧
          os1.sock s.f_socket = some { name := some n, rcvtimeo := none, rcvq := [] } ∧
          n.sin_addr = inet_addr (c_str addr) ∧ (htons port ≠ 0 → n.sin_port = htons port) ∧
          s.get_addr = addr ∧ s.get_port = port)) := by
  constructor
  · intro mem
    by_cases h : (sys_socket os).2 < 0
    · refine ⟨⟨fun _ => h, fun _ => ⟨_, udp_client_new_fail mem os addr port h⟩⟩, fun hn => absurd h hn⟩
    · rw [udp_client_new_ok mem os addr port h]
      refine ⟨⟨(fun ⟨_, he⟩ => nomatch he), fun hn => absurd hn h⟩, fun _ => ⟨_, _, rfl, ?_, rfl, rfl, rfl⟩⟩
      rw [printf_sock]
      exact sock_set_sock_same _ (sys_socket_ok os h).1
  · intro mem
    by_cases h : (sys_socket os).2 < 0
    · refine ⟨⟨fun _ => Or.inl h, fun _ => ⟨_, udp_server_new_fail_socket mem os addr port h⟩⟩,
        fun hn => absurd (Or.inl h) hn⟩
    · by_cases hb : (sys_bind (sys_socket os).1 (sys_socket os).2
          { sin_family := AF_INET, sin_port := htons port,
            sin_addr := inet_addr (c_str addr) }).2 < 0
      · refine ⟨⟨fun _ => Or.inr hb, fun _ => ⟨_, udp_server_new_fail_bind mem os addr port h hb⟩⟩,
          fun hn => absurd (Or.inr hb) hn⟩
      · rw [udp_server_new_ok mem os addr port h hb]
        refine ⟨⟨(fun ⟨_, he⟩ => nomatch he), fun hn => hn.elim (fun x => absurd x h)
          (fun x => absurd x hb)⟩, fun _ => ?_⟩
        obtain ⟨n, hn1, hn2, hn3⟩ := sys_bind_ok _ (sys_socket_ok os h).1 hb
        refine ⟨_, _, n, rfl, ?_, hn2, ?_, rfl, rfl⟩
        · rw [printf_sock, hn1]
          exact sock_set_sock_same _ (sys_socket_ok os h).1
        · intro hp
          rw [hn3 hp]

theorem install_cons (y : File) (t : List (Option File)) (k : Nat) (f : File) :
    install (some y :: t) (k + 1) f = some y :: install t k f := by
  unfold install
  by_cases h : k < t.length
  · simp [h]
  · simp [h]

/-- Creating a socket adds no local name. -/
theorem bound_names_install (fds : List (Option File)) :
    bound_names (install fds (first_free fds) (File.socket Socket.fresh)) = bound_names fds := by
  induction fds with
  | nil => simp [first_free, install, bound_names, Socket.fresh]
  | cons x t ih =>
    cases x with
    | none => simp [first_free, install, bound_names, Socket.fresh]
    | some y =>
      rw [first_free, install_cons]
      cases y with
      | other => simp only [bound_names, ih]
      | socket k =>
        cases hk : k.name with
        | none => simp only [bound_names, hk, ih]
        | some n => simp only [bound_names, hk, ih]

theorem sys_socket_in_use (os : OS) (a : sockaddr_in) (h : ¬ (sys_socket os).2 < 0) :
    (sys_socket os).1.in_use a = os.in_use a := by
  unfold sys_socket at h ⊢
  by_cases hf : first_free os.fds < os.nofile
  · rw [if_pos hf]
    simp only [OS.in_use, bound_names_install]
  · simp [hf] at h

theorem perror_bind_text : "bind failed" ++ ": " = "bind failed: " := by decide

/-! ## Invalid addresses and busy ports -/

/-- C6 (the claim fails here).  The text `localhost` is not dotted-quad text,
yet constructing a client with it returns an object, aimed at
`255.255.255.255`, and nothing is written to standard error. -/
theorem malformed_address_client_succeeds :
    is_dotted_quad (c_str "localhost") = false ∧
      ∃ os1 c, udp_client.new demo_client_mem demo_os "localhost" 1234 = Outcome.ret os1 c ∧
        c.f_servaddr = { sin_family := AF_INET, sin_port := 1234, sin_addr := INADDR_NONE } ∧
        os1.stderr = [] :=
  ⟨by decide, _, _, rfl, by decide, by decide⟩

/-- C6 (amended).  The constructors do not validate the address text: whatever
`inet_addr` makes of it is used, and that is `INADDR_NONE` (`255.255.255.255`)
for text `inet_aton` rejects.  Provided `socket()` succeeds: the client
constructor always returns an object aimed at that address and writes nothing
to standard error; a server constructor that returns has bound the socket to
that address; a server constructor that exits does so with `EXIT_FAILURE`
after writing `bind failed: ` and the reason to standard error; and it does
exit when the endpoint asked for (port not zero) is already in use. -/
theorem construct_bad_address_or_busy_port (os : OS) (addr : String) (port : Int)
    (hsock : ¬ (sys_socket os).2 < 0) :
    (inet_aton (c_str addr) = none → inet_addr (c_str addr) = INADDR_NONE) ∧
    (∀ mem : udp_client, ∃ os1 c, udp_client.new mem os addr port = Outcome.ret os1 c ∧
      c.f_servaddr = { sin_family := AF_INET, sin_port := htons port,
                       sin_addr := inet_addr (c_str addr) } ∧
      os1.stderr = os.stderr) ∧
    (∀ (mem : udp_server) (os1 : OS) (s : udp_server),
      udp_server.new mem os addr port = Outcome.ret os1 s →
        os1.stderr = os.stderr ∧
        ∃ k n, os1.sock s.f_socket = some k ∧ k.name = some n ∧
          n.sin_addr = inet_addr (c_str addr)) ∧
    (∀ (mem : udp_server) (os1 : OS) (st : Nat),
      udp_server.new mem os addr port = Outcome.exit os1 st →
        st = EXIT_FAILURE ∧
        ∃ e, os1.stderr = os.stderr ++ ["bind failed: " ++ strerror e ++ "\n"]) ∧
    (htons port ≠ 0 →
      os.in_use { sin_family := AF_INET, sin_port := htons port,
                  sin_addr := inet_addr (c_str addr) } = true →
      ∀ mem : udp_server, ∃ os1, udp_server.new mem os addr port = Outcome.exit os1 EXIT_FAILURE ∧
        (os1.stderr = os.stderr ++ ["bind failed: Address already in use\n"] ∨
         os1.stderr = os.stderr ++ ["bind failed: Cannot assign requested address\n"])) := by
  have hfresh := (sys_socket_ok os hsock).1
  have hstderr := (sys_socket_ok os hsock).2
  refine ⟨?_, ?_, ?_, ?_, ?_⟩
  · intro h
    simp only [inet_addr, h]
  · intro mem
    rw [udp_client_new_ok mem os addr port hsock]
    exact ⟨_, _, rfl, rfl, hstderr⟩
  · intro mem os1 s hnew
    by_cases hb : (sys_bind (sys_socket os).1 (sys_socket os).2
        { sin_family := AF_INET, sin_port := htons port,
          sin_addr := inet_addr (c_str addr) }).2 < 0
    · rw [udp_server_new_fail_bind mem os addr port hsock hb] at hnew
      cases hnew
    · rw [udp_server_new_ok mem os addr port hsock hb] at hnew
      obtain ⟨n, hn1, hn2, _⟩ := sys_bind_ok _ hfresh hb
      injection hnew with h1 h2
      subst h1 h2
      refine ⟨?_, { Socket.fresh with name := some n }, n, ?_, rfl, hn2⟩
      · show (sys_bind _ _ _).1.stderr = _
        rw [hn1]
        exact hstderr
      · rw [printf_sock, hn1]
        exact sock_set_sock_same _ hfresh
  · intro mem os1 st hnew
    by_cases hb : (sys_bind (sys_socket os).1 (sys_socket os).2
        { sin_family := AF_INET, sin_port := htons port,
          sin_addr := inet_addr (c_str addr) }).2 < 0
    · rw [udp_server_new_fail_bind mem os addr port hsock hb] at hnew
      obtain ⟨e, he⟩ := sys_bind_fail _ _ _ hb
      injection hnew with h1 h2
      subst h1 h2
      refine ⟨rfl, e, ?_⟩
      rw [he]
      simp only [perror, hstderr, perror_bind_text]
    · rw [udp_server_new_ok mem os addr port hsock hb] at hnew
      cases hnew
  · intro hport huse mem
    have hb := sys_bind_in_use
      { sin_family := AF_INET, sin_port := htons port, sin_addr := inet_addr (c_str addr) }
      hfresh rfl hport (by rw [sys_socket_in_use os _ hsock]; exact huse)
    have hneg : (sys_bind (sys_socket os).1 (sys_socket os).2
        { sin_family := AF_INET, sin_port := htons port,
          sin_addr := inet_addr (c_str addr) }).2 < 0 := by
      rw [hb]; show (-1 : Int) < 0; omega
    rw [udp_server_new_fail_bind mem os addr port hsock hneg, hb]
    refine ⟨_, rfl, ?_⟩
    simp only [perror, hstderr, perror_bind_text]
    split
    · right; rfl
    · left; rfl

/-- C6 (amended), at a concrete input: on a host where another process holds
`192.168.0.18:1234`, constructing a server there exits with `EXIT_FAILURE`
and the message `bind failed: Address already in use`. -/
theorem construct_bad_address_or_busy_port_witness :
    ∃ os1, udp_server.new demo_server_mem
        { demo_os with taken := [{ sin_family := 2, sin_port := 1234, sin_addr := 3232235538 }] }
        "192.168.0.18" 1234 = Outcome.exit os1 EXIT_FAILURE ∧
      (os1.stderr = demo_os.stderr ++ ["bind failed: Address already in use\n"] ∨
       os1.stderr = demo_os.stderr ++ ["bind failed: Cannot assign requested address\n"]) :=
  (construct_bad_address_or_busy_port
    { demo_os with taken := [{ sin_family := 2, sin_port := 1234, sin_addr := 3232235538 }] }
    "192.168.0.18" 1234 (by decide)).2.2.2.2 (by decide) (by decide) demo_server_mem

/-! ## Reply before any receive -/

/-- C8 (the claim fails here).  A server constructed in storage that was not
zeroed, on which no receive has been made, replies to the address those
stale bytes denote (`192.168.0.18:4660`), not to an all-zero address: the
datagram goes on the wire with that destination. -/
theorem reply_before_recv_not_zero :
    ∃ os1 s, udp_server.new stale_server_mem demo_os "192.168.0.18" 1234 = Outcome.ret os1 s ∧
      s.f_cliaddr = { sin_family := 2, sin_port := 4660, sin_addr := 3232235538 } ∧
      (s.reply os1 reply_data 27).2 = 27 ∧
      (s.reply os1 reply_data 27).1.wire =
        [{ dst := { sin_family := 2, sin_port := 4660, sin_addr := 3232235538 },
           src := { sin_family := 2, sin_port := 1234, sin_addr := 3232235538 },
           payload := reply_data }] :=
  ⟨_, _, rfl, by decide, by decide, by decide⟩

/-- C8 (amended).  The constructor does not assign `f_cliaddr`, so on a freshly
constructed server `reply` passes to the transport the address the object's
storage held before construction; every field of it is zero when that
storage was zeroed. -/
theorem reply_before_recv_uses_storage (mem : udp_server) (os : OS) (addr : String)
    (port : Int) (os1 : OS) (s : udp_server)
    (hnew : udp_server.new mem os addr port = Outcome.ret os1 s) :
    s.f_cliaddr = mem.f_cliaddr ∧
    (∀ msg size, s.reply os1 msg size =
      ((sys_sendto os1 s.f_socket msg size mem.f_cliaddr).1,
        to_int (sys_sendto os1 s.f_socket msg size mem.f_cliaddr).2)) ∧
    (mem.f_cliaddr = sockaddr_in.zero →
      s.f_cliaddr.sin_family = 0 ∧ s.f_cliaddr.sin_port = 0 ∧ s.f_cliaddr.sin_addr = 0) := by
  have hc : s.f_cliaddr = mem.f_cliaddr := by
    by_cases h : (sys_socket os).2 < 0
    · rw [udp_server_new_fail_socket mem os addr port h] at hnew
      cases hnew
    · by_cases hb : (sys_bind (sys_socket os).1 (sys_socket os).2
          { sin_family := AF_INET, sin_port := htons port,
            sin_addr := inet_addr (c_str addr) }).2 < 0
      · rw [udp_server_new_fail_bind mem os addr port h hb] at hnew
        cases hnew
      · rw [udp_server_new_ok mem os addr port h hb] at hnew
        injection hnew with h1 h2
        rw [← h2]
  refine ⟨hc, ?_, ?_⟩
  · intro msg size
    simp only [udp_server.reply, hc]
  · intro hz
    rw [hc, hz]
    exact ⟨rfl, rfl, rfl⟩

/-- C8 (amended), at a concrete input: the server constructed in zeroed
storage replies with an all-zero address. -/
theorem reply_before_recv_uses_storage_witness :
    ∃ os1 s, udp_server.new demo_server_mem demo_os "127.0.0.1" 1234 = Outcome.ret os1 s ∧
      s.f_cliaddr = demo_server_mem.f_cliaddr ∧
      s.f_cliaddr.sin_family = 0 ∧ s.f_cliaddr.sin_port = 0 ∧ s.f_cliaddr.sin_addr = 0 :=
  ⟨_, _, rfl,
    (reply_before_recv_uses_storage demo_server_mem demo_os "127.0.0.1" 1234 _ _ rfl).1,
    (reply_before_recv_uses_storage demo_server_mem demo_os "127.0.0.1" 1234 _ _ rfl).2.2 rfl⟩

/-! ## The local address helper -/

/-- The two stores of one `sprintf(w+i,"%c",c)` at the end of what was read. -/
theorem set_set_append (pre : List Char) (x y : Char) (post : List Char) (c : Char) :
    ((pre ++ x :: y :: post).set pre.length c).set (pre.length + 1) NUL =
      (pre ++ [c]) ++ NUL :: post := by
  induction pre with
  | nil => rfl
  | cons p t ih =>
    simp only [List.cons_append, List.length_cons, List.set_cons_succ, ih]

/-- The reading loop copies the characters it is given after the ones already
in place and ends them with a terminator. -/
theorem read_loop_spec (cs : List Char) :
    ∀ (pre rest : List Char), cs.length < rest.length →
      udp_helpers.read_loop (pre ++ rest) pre.length cs =
        some (pre ++ cs ++ (if cs = [] then rest else NUL :: rest.drop (cs.length + 1))) := by
  induction cs with
  | nil => intro pre rest _; simp [udp_helpers.read_loop]
  | cons c cs ih =>
    intro pre rest h
    match rest, h with
    | [x], h => simp at h
    | x :: y :: post, h =>
      have hi : pre.length + 1 < (pre ++ x :: y :: post).length := by simp
      rw [udp_helpers.read_loop, if_pos hi, set_set_append]
      have h1 : cs.length < (NUL :: post).length := by
        simp only [List.length_cons] at h ⊢; omega
      have := ih (pre ++ [c]) (NUL :: post) h1
      simp only [List.length_append, List.length_singleton] at this
      rw [this]
      by_cases hcs : cs = []
      · subst hcs; simp
      · simp [hcs]

/-- The string found at an array that holds `out`, a terminator, and more. -/
theorem c_string_at_append (out tl : List Char) (h : NUL ∉ out) :
    c_string_at (out ++ NUL :: tl) = out := by
  unfold c_string_at
  induction out with
  | nil => simp
  | cons a t ih =>
    have ha : a ≠ NUL := fun e => h (by simp [e])
    have ht : NUL ∉ t := fun e => h (by simp [e])
    rw [List.cons_append, List.takeWhile_cons_of_pos (by simpa using ha), ih ht]

/-- C9 (the claim fails here).  For an output that lists the single candidate
`192.168.0.18` the function returns that text followed by the line feed, and
for an output with two candidates it returns both lines; neither is the first
candidate alone. -/
theorem local_ip_keeps_line_terminator :
    is_dotted_quad "192.168.0.18".data = true ∧
    (udp_helpers.get_local_ip_address w_initial (query_output ["192.168.0.18".data])).map
      c_string_at = some "192.168.0.18\n".data ∧
    (udp_helpers.get_local_ip_address w_initial
      (query_output ["192.168.0.18".data, "10.0.0.1".data])).map
      c_string_at = some "192.168.0.18\n10.0.0.1\n".data ∧
    "192.168.0.18\n".data ≠ "192.168.0.18".data ∧
    "192.168.0.18\n10.0.0.1\n".data ≠ "192.168.0.18".data := by
  refine ⟨?_, ?_, ?_, ?_, ?_⟩ <;> decide

/-- C9 (amended).  Given an output of fewer than 128 characters (none of them
the terminator, at least one), the function returns the whole output text
unchanged: every candidate line with its line terminator, not only the
first address. -/
theorem local_ip_is_whole_output (w out : List Char) (hw : w.length = W_SIZE)
    (hlen : out.length < W_SIZE) (hnul : NUL ∉ out) (hne : out ≠ []) :
    ∃ w1, udp_helpers.get_local_ip_address w out = some w1 ∧ c_string_at w1 = out := by
  have h := read_loop_spec out [] w (by omega)
  simp only [List.nil_append, List.length_nil, if_neg hne] at h
  exact ⟨_, h, c_string_at_append _ _ hnul⟩

/-- C9 (amended), at a concrete input: two candidates come back as two lines. -/
theorem local_ip_is_whole_output_witness :
    ∃ w1, udp_helpers.get_local_ip_address w_initial
        (query_output ["192.168.0.18".data, "10.0.0.1".data]) = some w1 ∧
      c_string_at w1 = query_output ["192.168.0.18".data, "10.0.0.1".data] :=
  local_ip_is_whole_output w_initial (query_output ["192.168.0.18".data, "10.0.0.1".data])
    (by decide) (by decide) (by decide) (by decide)

/-! ## The reply goes to the last sender -/

/-- What `recvfrom` does when a datagram is queued and the buffer cannot hold
the part asked for. -/
theorem sys_recvfrom_fault {os : OS} {fd : Int} {sk : Socket} {d : Datagram}
    {rest : List Datagram} (msg : List Char) (max_size : Nat) (addr : sockaddr_in) (len : Nat)
    (hsock : os.sock fd = some sk) (hq : sk.rcvq = d :: rest)
    (hbuf : msg.length < (d.payload.take max_size).length) :
    sys_recvfrom os fd msg max_size addr len =
      some { os := { os.set_sock fd { sk with rcvq := rest } with errno := Errno.EFAULT },
             ret := -1, msg := msg, addr := addr, len := len } := by
  unfold sys_recvfrom
  simp only [hsock, hq]
  rw [if_pos hbuf]

/-- What one `sendto` adds to the wire: nothing when it fails, and when it
succeeds one datagram, addressed to `dst`, made of the first `size` characters
of the message. -/
theorem sys_sendto_wire (os : OS) (fd : Int) (msg : List Char) (size : Nat)
    (dst : sockaddr_in) :
    ∃ sent, (sys_sendto os fd msg size dst).1.wire = os.wire ++ sent ∧
      (∀ p ∈ sent, p.dst = dst ∧ p.payload = msg.take size) ∧
      (0 ≤ to_int (sys_sendto os fd msg size dst).2 → sent.length = 1) := by
  unfold sys_sendto
  have hfail : ∀ e : Errno, ∃ sent,
      (({ os with errno := e }, (-1 : Int)) : OS × Int).1.wire = os.wire ++ sent ∧
      (∀ p ∈ sent, p.dst = dst ∧ p.payload = msg.take size) ∧
      (0 ≤ to_int (({ os with errno := e }, (-1 : Int)) : OS × Int).2 → sent.length = 1) := by
    intro e
    refine ⟨[], by simp, by simp, ?_⟩
    intro h
    rw [to_int_neg_one] at h
    omega
  cases hs : os.sock fd with
  | none => exact hfail _
  | some sk =>
    simp only []
    by_cases h1 : UDP_MAX_PAYLOAD < size
    · rw [if_pos h1]; exact hfail _
    rw [if_neg h1]
    by_cases h2 : dst.sin_family ≠ AF_INET ∧ dst.sin_family ≠ AF_UNSPEC
    · rw [if_pos h2]; exact hfail _
    rw [if_neg h2]
    by_cases h3 : dst.sin_port = 0
    · rw [if_pos h3]; exact hfail _
    rw [if_neg h3]
    by_cases h4 : dst.sin_addr = INADDR_NONE
    · rw [if_pos h4]; exact hfail _
    rw [if_neg h4]
    by_cases h5 : msg.length < size
    · rw [if_pos h5]; exact hfail _
    rw [if_neg h5]
    split
    · exact hfail _
    · next n hn =>
      exact ⟨[_], rfl, by simp, fun _ => rfl⟩

/-- Delivery changes no socket but for its queue, which it leaves alone or
extends by the delivered datagram. -/
theorem deliver_socket (dst : sockaddr_in) (d : Datagram) (fds : List (Option File)) :
    ∀ (i : Nat) (k : Socket), fds.getD i none = some (File.socket k) →
      ∃ k1, (deliver dst d fds).getD i none = some (File.socket k1) ∧ k1.name = k.name ∧
        k1.rcvtimeo = k.rcvtimeo ∧ (k1.rcvq = k.rcvq ∨ k1.rcvq = k.rcvq ++ [d]) := by
  induction fds with
  | nil => intro i k h; simp at h
  | cons f t ih =>
    intro i k h
    have hrest : ∀ (g : Option File), (∀ j k0, t.getD j none = some (File.socket k0) →
        ∃ k1, (deliver dst d t).getD j none = some (File.socket k1) ∧ k1.name = k0.name ∧
          k1.rcvtimeo = k0.rcvtimeo ∧ (k1.rcvq = k0.rcvq ∨ k1.rcvq = k0.rcvq ++ [d])) →
        (g :: t).getD i none = some (File.socket k) →
        ∃ k1, (g :: deliver dst d t).getD i none = some (File.socket k1) ∧ k1.name = k.name ∧
          k1.rcvtimeo = k.rcvtimeo ∧ (k1.rcvq = k.rcvq ∨ k1.rcvq = k.rcvq ++ [d]) := by
      intro g hih hg
      cases i with
      | zero => exact ⟨k, by simpa using hg, rfl, rfl, Or.inl rfl⟩
      | succ j => exact hih j k (by simpa using hg)
    cases f with
    | none => simpa only [deliver] using hrest none ih h
    | some y =>
      cases y with
      | other => simpa only [deliver] using hrest (some File.other) ih h
      | socket k0 =>
        cases hn : k0.name with
        | none =>
          simp only [deliver, hn]
          exact hrest _ ih h
        | some n =>
          simp only [deliver, hn]
          by_cases ha : accepts n dst = true
          · rw [if_pos ha]
            cases i with
            | zero =>
              simp only [List.getD_cons_zero, Option.some.injEq, File.socket.injEq] at h
              subst h
              exact ⟨{ name := some n, rcvtimeo := k0.rcvtimeo, rcvq := k0.rcvq ++ [d] },
                by simp, hn.symm, rfl, Or.inr rfl⟩
            | succ j => exact ⟨k, by simpa using h, rfl, rfl, Or.inl rfl⟩
          · rw [if_neg ha]
            exact hrest _ ih h

/-- A `sendto` leaves the receive timeout of every socket as it was. -/
theorem sys_sendto_keeps_timeout (os : OS) (fd : Int) (msg : List Char) (size : Nat)
    (dst : sockaddr_in) (fd1 : Int) (k : Socket) (h : os.sock fd1 = some k) :
    ∃ k1, (sys_sendto os fd msg size dst).1.sock fd1 = some k1 ∧ k1.rcvtimeo = k.rcvtimeo := by
  unfold sys_sendto
  have hfail : ∀ e : Errno, ∃ k1,
      (({ os with errno := e }, (-1 : Int)) : OS × Int).1.sock fd1 = some k1 ∧
        k1.rcvtimeo = k.rcvtimeo := fun e => ⟨k, h, rfl⟩
  cases hs : os.sock fd with
  | none => exact hfail _
  | some sk =>
    simp only []
    by_cases h1 : UDP_MAX_PAYLOAD < size
    · rw [if_pos h1]; exact hfail _
    rw [if_neg h1]
    by_cases h2 : dst.sin_family ≠ AF_INET ∧ dst.sin_family ≠ AF_UNSPEC
    · rw [if_pos h2]; exact hfail _
    rw [if_neg h2]
    by_cases h3 : dst.sin_port = 0
    · rw [if_pos h3]; exact hfail _
    rw [if_neg h3]
    by_cases h4 : dst.sin_addr = INADDR_NONE
    · rw [if_pos h4]; exact hfail _
    rw [if_neg h4]
    by_cases h5 : msg.length < size
    · rw [if_pos h5]; exact hfail _
    rw [if_neg h5]
    split
    · exact hfail _
    · next n hn =>
      have hfd1 := sock_nonneg h
      have hfd := sock_nonneg hs
      -- the socket behind `fd1` after the sender got its name
      have hstep : ∃ k0, (os.set_sock fd { sk with name := some n }).sock fd1 = some k0 ∧
          k0.rcvtimeo = k.rcvtimeo := by
        by_cases he : fd = fd1
        · subst he
          rw [hs] at h
          injection h with h
          subst h
          exact ⟨_, sock_set_sock_same _ hs, rfl⟩
        · exact ⟨k, by rw [sock_set_sock_other _ hfd hfd1 he]; exact h, rfl⟩
      obtain ⟨k0, hk0, hk0t⟩ := hstep
      by_cases hl : dst.sin_addr ∈ os.ifaddrs
      · simp only [if_pos hl]
        obtain ⟨k1, hk1, _, hk1t, _⟩ :=
          deliver_socket dst
            { src := { n with sin_addr := os.source_addr n dst }, payload := msg.take size }
            (os.set_sock fd { sk with name := some n }).fds fd1.toNat k0 (sock_eq_getD hk0)
        refine ⟨k1, ?_, hk1t.trans hk0t⟩
        unfold OS.sock
        rw [if_neg (by omega)]
        simp only [hk1]
      · simp only [if_neg hl]
        exact ⟨k0, hk0, hk0t⟩

/-- With a receive timeout set, `recvfrom` always returns; it leaves the wire
and the timeout alone. -/
theorem sys_recvfrom_returns (os : OS) (fd : Int) (msg : List Char) (max_size : Nat)
    (addr : sockaddr_in) (len : Nat) (k : Socket) (t : Nat)
    (h : os.sock fd = some k) (ht : k.rcvtimeo = some t) :
    ∃ r, sys_recvfrom os fd msg max_size addr len = some r ∧ r.os.wire = os.wire ∧
      ∃ k1, r.os.sock fd = some k1 ∧ k1.rcvtimeo = some t := by
  cases hq : k.rcvq with
  | nil =>
    exact ⟨_, sys_recvfrom_timeout msg max_size addr len h hq ht, rfl, k, h, ht⟩
  | cons d rest =>
    by_cases hbuf : msg.length < (d.payload.take max_size).length
    · exact ⟨_, sys_recvfrom_fault msg max_size addr len h hq hbuf, rfl, _,
        sock_set_sock_same { k with rcvq := rest } h, ht⟩
    · by_cases hbad : 2147483648 ≤ len
      · exact ⟨_, sys_recvfrom_bad_len msg max_size addr len h hq (by omega) hbad, rfl, _,
          sock_set_sock_same { k with rcvq := rest } h, ht⟩
      · exact ⟨_, sys_recvfrom_queued msg max_size addr len h hq (by omega) (by omega), rfl, _,
          sock_set_sock_same { k with rcvq := rest } h, ht⟩

/-- A sequence of client operations on a socket with a receive timeout runs to
its end; it changes neither the address, the port, the destination nor the
descriptor of the client, keeps the timeout, and adds to the wire only
datagrams addressed to the client's destination. -/
theorem udp_client_run_spec (ops : List ClientOp) :
    ∀ (c : udp_client) (os : OS) (k : Socket) (t : Nat),
      os.sock c.f_socket = some k → k.rcvtimeo = some t →
      ∃ os2 c2, udp_client.run ops c os = some (os2, c2) ∧
        c2.f_addr = c.f_addr ∧ c2.f_port = c.f_port ∧ c2.f_servaddr = c.f_servaddr ∧
        c2.f_socket = c.f_socket ∧
        (∃ k2, os2.sock c2.f_socket = some k2 ∧ k2.rcvtimeo = some t) ∧
        ∃ sent, os2.wire = os.wire ++ sent ∧ ∀ p ∈ sent, p.dst = c.f_servaddr := by
  induction ops with
  | nil =>
    intro c os k t h ht
    exact ⟨os, c, rfl, rfl, rfl, rfl, rfl, ⟨k, h, ht⟩, [], by simp, by simp⟩
  | cons op ops ih =>
    intro c os k t h ht
    cases op with
    | send msg size =>
      obtain ⟨k1, hk1, hk1t⟩ := sys_sendto_keeps_timeout os c.f_socket msg size c.f_servaddr _ k h
      obtain ⟨sent, hw, hdst, _⟩ := sys_sendto_wire os c.f_socket msg size c.f_servaddr
      obtain ⟨os2, c2, hr, h1, h2, h3, h4, h5, sent2, hw2, hdst2⟩ :=
        ih c (c.send os msg size).1 k1 t hk1 (hk1t.trans ht)
      refine ⟨os2, c2, hr, h1, h2, h3, h4, h5, sent ++ sent2, ?_, ?_⟩
      · rw [hw2]
        show (sys_sendto os c.f_socket msg size c.f_servaddr).1.wire ++ sent2 = _
        rw [hw, List.append_assoc]
      · intro p hp
        rcases List.mem_append.mp hp with hp | hp
        · exact (hdst p hp).1
        · exact hdst2 p hp
    | recv msg max_size =>
      obtain ⟨r, hr, hwire, k1, hk1, hk1t⟩ :=
        sys_recvfrom_returns os c.f_socket msg max_size c.f_cliaddr c.len k t h ht
      obtain ⟨os2, c2, hrun, h1, h2, h3, h4, h5, sent2, hw2, hdst2⟩ :=
        ih { c with f_cliaddr := r.addr, len := r.len } r.os k1 t hk1 hk1t
      refine ⟨os2, c2, ?_, h1, h2, h3, h4, h5, sent2, ?_, hdst2⟩
      · simp only [udp_client.run, udp_client.recv, hr, Option.map_some']
        exact hrun
      · rw [hw2, hwire]
    | arrive d =>
      obtain ⟨os2, c2, hrun, h1, h2, h3, h4, h5, sent2, hw2, hdst2⟩ :=
        ih c (os.arrive c.f_socket d) { k with rcvq := k.rcvq ++ [d] } t
          (by simp only [OS.arrive, h]; exact sock_set_sock_same _ h) ht
      refine ⟨os2, c2, hrun, h1, h2, h3, h4, h5, sent2, ?_, hdst2⟩
      rw [hw2]
      simp only [OS.arrive, h, set_sock_wire]

/-- What a client constructor that returned has set up. -/
theorem udp_client_new_ret {mem : udp_client} {os : OS} {addr : String} {port : Int}
    {os1 : OS} {c : udp_client} (hnew : udp_client.new mem os addr port = Outcome.ret os1 c) :
    os1.sock c.f_socket = some { name := none, rcvtimeo := some 10000, rcvq := [] } ∧
      c.f_addr = addr ∧ c.f_port = port ∧
      c.f_servaddr = { sin_family := AF_INET, sin_port := htons port,
                       sin_addr := inet_addr (c_str addr) } := by
  by_cases h : (sys_socket os).2 < 0
  · rw [udp_client_new_fail mem os addr port h] at hnew
    cases hnew
  · rw [udp_client_new_ok mem os addr port h] at hnew
    injection hnew with h1 h2
    subst h1 h2
    refine ⟨?_, rfl, rfl, rfl⟩
    rw [printf_sock]
    exact sock_set_sock_same _ (sys_socket_ok os h).1

/-! ## The client's destination is fixed -/

/-- C7.  After construction with address text `addr` and port `port`, any
sequence of `send` calls, `recv` calls and datagram arrivals runs to its end
and leaves the client with `get_addr() = addr` (the text as given),
`get_port() = port`, and every datagram the sequence put on the wire is
addressed to the destination made from `addr` and `port` at construction. -/
theorem client_destination_immutable (mem : udp_client) (os : OS) (addr : String)
    (port : Int) (os1 : OS) (c : udp_client) (ops : List ClientOp)
    (hnew : udp_client.new mem os addr port = Outcome.ret os1 c) :
    ∃ os2 c2, udp_client.run ops c os1 = some (os2, c2) ∧
      c2.get_addr = addr ∧ c2.get_port = port ∧
      c2.f_servaddr = { sin_family := AF_INET, sin_port := htons port,
                        sin_addr := inet_addr (c_str addr) } ∧
      ∃ sent, os2.wire = os1.wire ++ sent ∧
        ∀ p ∈ sent, p.dst = { sin_family := AF_INET, sin_port := htons port,
                              sin_addr := inet_addr (c_str addr) } := by
  obtain ⟨hs, ha, hp, hd⟩ := udp_client_new_ret hnew
  obtain ⟨os2, c2, hrun, h1, h2, h3, _, _, sent, hw, hdst⟩ :=
    udp_client_run_spec ops c os1 _ 10000 hs rfl
  refine ⟨os2, c2, hrun, ?_, ?_, ?_, sent, hw, ?_⟩
  · simp only [udp_client.get_addr, h1, ha]
  · simp only [udp_client.get_port, h2, hp]
  · rw [h3, hd]
  · intro p hp
    rw [hdst p hp, hd]

/-! ## The client's receive timeout -/

/-- C4.  Take a constructed client after any sequence of its operations, at a
moment when nothing is queued on its socket.  A `recv` then returns (the 10 ms
timeout set by the constructor ends the wait) with `-1` and `errno` `EAGAIN`,
the buffer untouched.  Had an empty datagram arrived instead, a `recv` that
succeeds returns `0`, and it does succeed when the client's `len` is below
`2^31` (otherwise it fails with `-1` and `EINVAL`).  So the timeout result
differs from the result of every successful receive of an empty datagram,
and in return value or `errno` from whatever that receive gives. -/
theorem client_recv_timeout_distinguishable (mem : udp_client) (os : OS) (addr : String)
    (port : Int) (os1 : OS) (c : udp_client) (ops : List ClientOp)
    (hnew : udp_client.new mem os addr port = Outcome.ret os1 c) :
    ∃ os2 c2, udp_client.run ops c os1 = some (os2, c2) ∧
      ∀ k, os2.sock c2.f_socket = some k → k.rcvq = [] →
        ∀ (msg : List Char) (max_size : Nat),
          (∃ r, c2.recv os2 msg max_size = some r ∧ r.ret = -1 ∧
            r.os.errno = Errno.EAGAIN ∧ r.msg = msg) ∧
          (∀ src, ∃ r0, c2.recv (os2.arrive c2.f_socket { src := src, payload := [] })
            msg max_size = some r0 ∧ r0.msg = msg ∧
            (c2.len < 2147483648 → r0.ret = 0) ∧
            (2147483648 ≤ c2.len → r0.ret = -1 ∧ r0.os.errno = Errno.EINVAL)) ∧
          (∀ src r r0, c2.recv os2 msg max_size = some r →
            c2.recv (os2.arrive c2.f_socket { src := src, payload := [] }) msg max_size
              = some r0 →
            (0 ≤ r0.ret → r0.ret = 0 ∧ r.ret ≠ r0.ret) ∧
            (r.ret ≠ r0.ret ∨ r.os.errno ≠ r0.os.errno)) := by
  obtain ⟨hs, _, _, _⟩ := udp_client_new_ret hnew
  obtain ⟨os2, c2, hrun, _, _, _, _, ⟨k2, hk2, hk2t⟩, _⟩ :=
    udp_client_run_spec ops c os1 _ 10000 hs rfl
  refine ⟨os2, c2, hrun, ?_⟩
  intro k hk hq msg max_size
  rw [hk2] at hk
  injection hk with hk
  subst hk
  have htimeout : c2.recv os2 msg max_size =
      some { os := { os2 with errno := Errno.EAGAIN },
             self := { c2 with f_cliaddr := c2.f_cliaddr, len := c2.len },
             msg := msg, ret := -1 } := by
    simp only [udp_client.recv,
      sys_recvfrom_timeout msg max_size c2.f_cliaddr c2.len hk2 hq hk2t, Option.map_some',
      to_int_neg_one]
  have ha : ∀ src, (os2.arrive c2.f_socket { src := src, payload := [] }).sock c2.f_socket =
      some { k2 with rcvq := k2.rcvq ++ [{ src := src, payload := [] }] } := by
    intro src
    simp only [OS.arrive, hk2]
    exact sock_set_sock_same _ hk2
  have hq1 : ∀ src,
      ({ k2 with rcvq := k2.rcvq ++ [{ src := src, payload := [] }] } : Socket).rcvq
        = { src := src, payload := [] } :: [] := by
    intro src
    simp only [hq, List.nil_append]
  -- the receive of the empty datagram, by the sign of `len`
  have hgood : c2.len < 2147483648 → ∀ src,
      c2.recv (os2.arrive c2.f_socket { src := src, payload := [] }) msg max_size =
      some { os := (os2.arrive c2.f_socket { src := src, payload := [] }).set_sock c2.f_socket
                     { name := k2.name, rcvtimeo := k2.rcvtimeo, rcvq := [] },
             self := { c2 with f_cliaddr := store_sockaddr c2.len c2.f_cliaddr src,
                               len := SIZEOF_SOCKADDR_IN },
             msg := msg, ret := 0 } := by
    intro hl src
    simp only [udp_client.recv,
      sys_recvfrom_queued msg max_size c2.f_cliaddr c2.len (ha src) (hq1 src) (by simp) hl,
      Option.map_some']
    simp [to_int]
  have hbad : 2147483648 ≤ c2.len → ∀ src,
      c2.recv (os2.arrive c2.f_socket { src := src, payload := [] }) msg max_size =
      some { os := { (os2.arrive c2.f_socket { src := src, payload := [] }).set_sock
                       c2.f_socket { name := k2.name, rcvtimeo := k2.rcvtimeo, rcvq := [] }
                     with errno := Errno.EINVAL },
             self := { c2 with f_cliaddr := c2.f_cliaddr, len := c2.len },
             msg := msg, ret := -1 } := by
    intro hl src
    simp only [udp_client.recv,
      sys_recvfrom_bad_len msg max_size c2.f_cliaddr c2.len (ha src) (hq1 src) (by simp) hl,
      Option.map_some', to_int_neg_one]
    simp
  refine ⟨⟨_, htimeout, rfl, rfl, rfl⟩, ?_, ?_⟩
  · intro src
    by_cases hl : c2.len < 2147483648
    · exact ⟨_, hgood hl src, rfl, fun _ => rfl, fun h => absurd h (by omega)⟩
    · exact ⟨_, hbad (by omega) src, rfl, fun h => absurd h hl, fun _ => ⟨rfl, rfl⟩⟩
  · intro src r r0 hr hr0
    rw [htimeout] at hr
    injection hr with hr
    by_cases hl : c2.len < 2147483648
    · rw [hgood hl src] at hr0
      injection hr0 with hr0
      rw [← hr, ← hr0]
      refine ⟨fun _ => ⟨rfl, ?_⟩, Or.inl ?_⟩
      · show (-1 : Int) ≠ 0
        omega
      · show (-1 : Int) ≠ 0
        omega
    · rw [hbad (by omega) src] at hr0
      injection hr0 with hr0
      rw [← hr, ← hr0]
      refine ⟨fun h => ?_, Or.inr ?_⟩
      · exact absurd (show (0 : Int) ≤ -1 from h) (by omega)
      · show Errno.EAGAIN ≠ Errno.EINVAL
        decide

/-! ## Payload round trip -/

theorem deliver_cons_rejects (dst : sockaddr_in) (d : Datagram) (f : Option File)
    (t : List (Option File)) (h : entry_accepts dst f = false) :
    deliver dst d (f :: t) = f :: deliver dst d t := by
  cases f with
  | none => rfl
  | some y =>
    cases y with
    | other => rfl
    | socket k =>
      cases hn : k.name with
      | none => simp only [deliver, hn]
      | some n =>
        simp only [entry_accepts, hn] at h
        simp only [deliver, hn, h]
        rfl

/-- The datagram is queued on the first socket that accepts the destination. -/
theorem deliver_to_first (dst : sockaddr_in) (d : Datagram) (fds : List (Option File)) :
    ∀ (i : Nat) (k : Socket), first_accepting dst fds = some i →
      fds.getD i none = some (File.socket k) →
      (deliver dst d fds).getD i none = some (File.socket { k with rcvq := k.rcvq ++ [d] }) := by
  induction fds with
  | nil => intro i k h; simp [first_accepting] at h
  | cons f t ih =>
    intro i k hfa hget
    rw [first_accepting] at hfa
    by_cases ha : entry_accepts dst f = true
    · rw [if_pos ha] at hfa
      injection hfa with hfa
      subst hfa
      simp only [List.getD_cons_zero] at hget
      subst hget
      cases hn : k.name with
      | none => simp [entry_accepts, hn] at ha
      | some n =>
        simp only [entry_accepts, hn] at ha
        simp only [deliver, hn, ha, if_true, List.getD_cons_zero]
    · rw [if_neg ha] at hfa
      have hf : entry_accepts dst f = false := by simpa using ha
      rw [deliver_cons_rejects dst d f t hf]
      cases i with
      | zero => simp at hfa
      | succ j =>
        simp only [Option.map_eq_some', Nat.add_right_cancel_iff] at hfa
        obtain ⟨a, ha1, ha2⟩ := hfa
        subst ha2
        simpa using ih a k ha1 (by simpa using hget)

/-- Replacing another entry by a socket does not change which socket comes
first, provided the new socket does not accept the destination when it stands
before the first one. -/
theorem first_accepting_set (dst : sockaddr_in) (nw : Socket) (fds : List (Option File)) :
    ∀ (i j : Nat), first_accepting dst fds = some i → j ≠ i →
      (j < i → entry_accepts dst (some (File.socket nw)) = false) →
      first_accepting dst (fds.set j (some (File.socket nw))) = some i := by
  induction fds with
  | nil => intro i j h; simp [first_accepting] at h
  | cons f t ih =>
    intro i j hfa hne hnw
    rw [first_accepting] at hfa
    cases j with
    | zero =>
      simp only [List.set_cons_zero]
      rw [first_accepting, hnw (by omega)]
      by_cases ha : entry_accepts dst f = true
      · rw [if_pos ha] at hfa
        injection hfa with hfa
        exact absurd hfa hne
      · rw [if_neg ha] at hfa
        simpa using hfa
    | succ j1 =>
      simp only [List.set_cons_succ]
      rw [first_accepting]
      by_cases ha : entry_accepts dst f = true
      · rw [if_pos ha] at hfa ⊢
        exact hfa
      · rw [if_neg ha] at hfa ⊢
        cases i with
        | zero => simp at hfa
        | succ i1 =>
          simp only [Option.map_eq_some', Nat.add_right_cancel_iff] at hfa
          obtain ⟨a, ha1, ha2⟩ := hfa
          subst ha2
          rw [ih a j1 ha1 (by omega) (fun h => hnw (by omega))]
          rfl

/-- An entry before the first accepting one does not accept. -/
theorem first_accepting_before (dst : sockaddr_in) (fds : List (Option File)) :
    ∀ (i j : Nat), first_accepting dst fds = some i → j < i →
      entry_accepts dst (fds.getD j none) = false := by
  induction fds with
  | nil => intro i j h; simp [first_accepting] at h
  | cons f t ih =>
    intro i j hfa hlt
    rw [first_accepting] at hfa
    by_cases ha : entry_accepts dst f = true
    · rw [if_pos ha] at hfa
      injection hfa with hfa
      omega
    · rw [if_neg ha] at hfa
      cases i with
      | zero => omega
      | succ i1 =>
        simp only [Option.map_eq_some', Nat.add_right_cancel_iff] at hfa
        obtain ⟨a, ha1, ha2⟩ := hfa
        subst ha2
        cases j with
        | zero => simpa using ha
        | succ j1 => simpa using ih a j1 ha1 (by omega)

/-- The name of a socket of the table is one of the table's bound names. -/
theorem mem_bound_names (fds : List (Option File)) :
    ∀ (i : Nat) (k : Socket) (n : sockaddr_in), fds.getD i none = some (File.socket k) →
      k.name = some n → n ∈ bound_names fds := by
  induction fds with
  | nil => intro i k n h; simp at h
  | cons f t ih =>
    intro i k n hget hn
    cases i with
    | zero =>
      simp only [List.getD_cons_zero] at hget
      subst hget
      simp [bound_names, hn]
    | succ j =>
      have := ih j k n (by simpa using hget) hn
      cases f with
      | none => simpa [bound_names] using this
      | some y =>
        cases y with
        | other => simpa [bound_names] using this
        | socket k0 =>
          cases h0 : k0.name with
          | none => simpa [bound_names, h0] using this
          | some n0 => simp [bound_names, h0, this]

/-- A port the kernel picks for an unbound sender differs from the port of
every bound socket. -/
theorem ephemeral_ne_port (os : OS) (p : Nat) (n : sockaddr_in)
    (hp : os.ephemeral INADDR_ANY = some p) (hn : n ∈ bound_names os.fds) :
    accepts { sin_family := AF_INET, sin_port := p, sin_addr := INADDR_ANY } n = false := by
  unfold OS.ephemeral at hp
  have h1 := List.find?_some hp
  simp only [Bool.not_eq_true', OS.in_use, List.any_eq_false, List.mem_append] at h1
  have h2 := h1 n (Or.inl hn)
  simp only [names_clash, decide_eq_true_eq, true_or, or_true, and_true] at h2
  simp only [accepts, decide_eq_false_iff_not, or_true, and_true]
  exact h2

/-- What `sendto` does when it succeeds with a local destination: `cn` is the
sender's name, the one it had or the one it is given. -/
theorem sys_sendto_ok {os : OS} {fd : Int} {sk : Socket} (msg : List Char) (size : Nat)
    (dst cn : sockaddr_in) (hs : os.sock fd = some sk)
    (h1 : size ≤ UDP_MAX_PAYLOAD) (h2 : dst.sin_family = AF_INET) (h3 : dst.sin_port ≠ 0)
    (h4 : dst.sin_addr ≠ INADDR_NONE) (h5 : size ≤ msg.length)
    (hl : dst.sin_addr ∈ os.ifaddrs)
    (hcn : sk.name = some cn ∨ ∃ p, sk.name = none ∧ os.ephemeral INADDR_ANY = some p ∧
      cn = { sin_family := AF_INET, sin_port := p, sin_addr := INADDR_ANY }) :
    sys_sendto os fd msg size dst =
      ({ os with
          fds := deliver dst
            { src := { cn with sin_addr := os.source_addr cn dst }, payload := msg.take size }
            (os.fds.set fd.toNat (some (File.socket { sk with name := some cn }))),
          wire := os.wire ++
            [{ dst := dst, src := { cn with sin_addr := os.source_addr cn dst },
               payload := msg.take size }] },
        (size : Int)) := by
  unfold sys_sendto
  simp only [hs]
  rw [if_neg (by omega), if_neg (by simp [h2]), if_neg h3, if_neg h4, if_neg (by omega)]
  rcases hcn with hcn | ⟨p, hcn, hp, hcn2⟩
  · simp only [hcn, if_pos hl, OS.set_sock]
  · subst hcn2
    simp only [hcn, hp, Option.map_some', if_pos hl, OS.set_sock]

/-- C2.  A client whose destination is the name `n` a server socket is bound
to (a local unicast address and a port) sends `m`, not longer than a UDP
datagram may be, with `send(m, |m|)`; the server's queue was empty, its
socket is the one that receives datagrams for `n`, and its `len` is a sound
length (below `2^31`; the constructor sets it to `sizeof(f_cliaddr)`).  Then `send` returns
`|m|`, and the server's `recv` into a buffer with capacity `max_size ≥ |m|`
returns `|m|` with the buffer holding exactly the characters of `m` (followed
by what it held beyond them).  Moreover the one datagram `send` hands to the
transport is addressed to `n` and carries exactly `m`, and on any host where
that datagram is the next in the server's queue `recv` returns `|m|` and
`m` likewise. -/
theorem payload_round_trip (os : OS) (c : udp_client) (s : udp_server) (ck sk : Socket)
    (n : sockaddr_in) (m buf : List Char) (max_size : Nat)
    (hc : os.sock c.f_socket = some ck) (hs : os.sock s.f_socket = some sk)
    (hne : c.f_socket ≠ s.f_socket)
    (hname : sk.name = some n) (hdest : c.f_servaddr = n)
    (hfam : n.sin_family = AF_INET) (hport : n.sin_port ≠ 0)
    (hlocal : n.sin_addr ∈ os.ifaddrs) (hnb : n.sin_addr ≠ INADDR_NONE)
    (hfirst : first_accepting n os.fds = some s.f_socket.toNat)
    (heph : ck.name = none → (os.ephemeral INADDR_ANY).isSome = true)
    (hq : sk.rcvq = []) (hlen : s.len < 2147483648)
    (hm : m.length ≤ UDP_MAX_PAYLOAD) (hcap : m.length ≤ max_size)
    (hbuf : max_size ≤ buf.length) :
    (c.send os m m.length).2 = (m.length : Int) ∧
    (∃ r, s.recv (c.send os m m.length).1 buf max_size = some r ∧
      r.ret = (m.length : Int) ∧ r.msg = m ++ buf.drop m.length ∧
      r.msg.take m.length = m) ∧
    ∃ src, (c.send os m m.length).1.wire =
        os.wire ++ [{ dst := n, src := src, payload := m }] ∧
      ∀ (os2 : OS) (k : Socket) (rest : List Datagram),
        os2.sock s.f_socket = some k → k.rcvq = { src := src, payload := m } :: rest →
        ∃ r, s.recv os2 buf max_size = some r ∧
          r.ret = (m.length : Int) ∧ r.msg = m ++ buf.drop m.length := by
  have hc0 := sock_nonneg hc
  have hs0 := sock_nonneg hs
  have hidx : c.f_socket.toNat ≠ s.f_socket.toNat := by omega
  -- the name the client's socket sends from
  obtain ⟨cn, hcn⟩ : ∃ cn, ck.name = some cn ∨ ∃ p, ck.name = none ∧
      os.ephemeral INADDR_ANY = some p ∧
      cn = { sin_family := AF_INET, sin_port := p, sin_addr := INADDR_ANY } := by
    cases hk : ck.name with
    | some cn => exact ⟨cn, Or.inl rfl⟩
    | none =>
      have := heph hk
      obtain ⟨p, hp⟩ := Option.isSome_iff_exists.mp this
      exact ⟨_, Or.inr ⟨p, rfl, hp, rfl⟩⟩
  have hsend := sys_sendto_ok m m.length n cn hc hm hfam hport hnb (le_refl _) hlocal hcn
  -- the client's socket, named, does not take the datagram from the server's
  have hrej : c.f_socket.toNat < s.f_socket.toNat →
      entry_accepts n (some (File.socket { ck with name := some cn })) = false := by
    intro hlt
    rcases hcn with hcn | ⟨p, _, hp, hcn2⟩
    · have := first_accepting_before n os.fds _ _ hfirst hlt
      rw [sock_eq_getD hc] at this
      simpa only [entry_accepts, hcn] using this
    · subst hcn2
      simp only [entry_accepts]
      exact ephemeral_ne_port os p n hp (mem_bound_names os.fds _ sk n (sock_eq_getD hs) hname)
  have hfirst1 := first_accepting_set n { ck with name := some cn } os.fds _ _ hfirst hidx hrej
  have hget : (os.fds.set c.f_socket.toNat
      (some (File.socket { ck with name := some cn }))).getD s.f_socket.toNat none =
      some (File.socket sk) := by
    rw [← sock_eq_getD hs]
    simp [List.getD_eq_getElem?_getD, List.getElem?_set, hidx]
  have hdel := deliver_to_first n
    { src := { cn with sin_addr := os.source_addr cn n }, payload := m.take m.length }
    _ _ sk hfirst1 hget
  have hsock1 : (c.send os m m.length).1.sock s.f_socket =
      some { sk with rcvq := sk.rcvq ++
        [{ src := { cn with sin_addr := os.source_addr cn n }, payload := m.take m.length }] } := by
    simp only [udp_client.send, hdest, hsend]
    unfold OS.sock
    rw [if_neg (by omega)]
    simp only [hdel]
  have hq1 : ({ sk with rcvq := sk.rcvq ++
        [{ src := { cn with sin_addr := os.source_addr cn n },
           payload := m.take m.length }] } : Socket).rcvq =
      { src := { cn with sin_addr := os.source_addr cn n }, payload := m } :: [] := by
    simp only [hq, List.nil_append, List.take_length]
  have htake : m.take max_size = m := List.take_of_length_le hcap
  refine ⟨?_, ?_, { cn with sin_addr := os.source_addr cn n }, ?_, ?_⟩
  · simp only [udp_client.send, hdest, hsend]
    exact to_int_small _ hm
  · have hrecv := sys_recvfrom_queued buf max_size s.f_cliaddr s.len hsock1 hq1
      (by simp only [htake]; omega) hlen
    simp only [htake] at hrecv
    refine ⟨_, by simp only [udp_server.recv, hrecv, Option.map_some']; rfl, ?_, rfl, ?_⟩
    · exact to_int_small _ hm
    · simp
  · simp only [udp_client.send, hdest, hsend, List.take_length]
  · intro os2 k rest hk hkq
    have hrecv := sys_recvfrom_queued buf max_size s.f_cliaddr s.len hk hkq
      (by simp only [htake]; omega) hlen
    simp only [htake] at hrecv
    refine ⟨_, by simp only [udp_server.recv, hrecv, Option.map_some']; rfl, ?_, rfl⟩
    exact to_int_small _ hm

/-! ## The properties on the driver's exchange -/

/-- C2 at the driver's exchange: the client sends
`"Hello from CPP UDP client!\n"` (27 characters) and the server's `recv` into
the 1024 character buffer returns 27 with those characters in front. -/
theorem payload_round_trip_witness :
    (demo_client.send demo_client_os data_to_send data_to_send.length).2 =
        (data_to_send.length : Int) ∧
      ∃ r, demo_server.recv
          (demo_client.send demo_client_os data_to_send data_to_send.length).1
          data_to_recv 1024 = some r ∧
        r.ret = (data_to_send.length : Int) ∧
        r.msg = data_to_send ++ data_to_recv.drop data_to_send.length ∧
        r.msg.take data_to_send.length = data_to_send :=
  have h := payload_round_trip demo_client_os demo_client demo_server
    { name := none, rcvtimeo := some 10000, rcvq := [] }
    { name := some { sin_family := 2, sin_port := 1234, sin_addr := 3232235538 },
      rcvtimeo := none, rcvq := [] }
    { sin_family := 2, sin_port := 1234, sin_addr := 3232235538 }
    data_to_send data_to_recv 1024
    (by decide) (by decide) (by decide) rfl (by decide) (by decide) (by decide) (by decide)
    (by decide) (by decide) (fun _ => by decide) rfl (by decide) (by decide) (by decide)
    (by decide)
  ⟨h.1, h.2.1⟩

/-- C4 at the driver's client: after its `send`, with nothing queued, a `recv`
into the driver's buffer times out with `-1` and `EAGAIN`; with an empty
datagram from A queued instead it returns `0`. -/
theorem client_recv_timeout_distinguishable_witness :
    ∃ r r0,
      udp_client.run [ClientOp.send data_to_send 27] demo_client demo_client_os =
        some ((demo_client.send demo_client_os data_to_send 27).1, demo_client) ∧
      ((demo_client.send demo_client_os data_to_send 27).1.sock demo_client.f_socket).map
        (fun k => k.rcvq) = some [] ∧
      demo_client.recv (demo_client.send demo_client_os data_to_send 27).1 data_to_recv 1024
        = some r ∧
      r.ret = -1 ∧ r.os.errno = Errno.EAGAIN ∧ r.msg = data_to_recv ∧
      demo_client.recv
        ((demo_client.send demo_client_os data_to_send 27).1.arrive demo_client.f_socket
          { src := demo_sender_a, payload := [] }) data_to_recv 1024 = some r0 ∧
      r0.ret = 0 ∧ r.ret ≠ r0.ret := by
  obtain ⟨os2, c2, hrun, h⟩ :=
    client_recv_timeout_distinguishable demo_client_mem demo_server_os "192.168.0.18" 1234
      demo_client_os demo_client [ClientOp.send data_to_send 27] rfl
  have hrun1 : udp_client.run [ClientOp.send data_to_send 27] demo_client demo_client_os =
      some ((demo_client.send demo_client_os data_to_send 27).1, demo_client) := rfl
  rw [hrun1] at hrun
  injection hrun with hrun
  injection hrun with h1 h2
  subst h1 h2
  obtain ⟨⟨r, hr, hr1, hr2, hr3⟩, he, hd⟩ :=
    h { name := some { sin_family := 2, sin_port := 32768, sin_addr := 0 },
        rcvtimeo := some 10000, rcvq := [] } (by decide) rfl data_to_recv 1024
  obtain ⟨r0, hr0, _, hz, _⟩ := he demo_sender_a
  have hz1 : r0.ret = 0 := hz (by decide)
  exact ⟨r, r0, rfl, by decide, hr, hr1, hr2, hr3, hr0, hz1,
    ((hd demo_sender_a r r0 hr hr0).1 (by rw [hz1])).2⟩

/-- C7 at the driver's client: after a `send`, a `recv` that times out and
another `send`, address, port and destination are those of the construction
and both datagrams went to `192.168.0.18:1234`. -/
theorem client_destination_immutable_witness :
    ∃ os2 c2,
      udp_client.run
        [ClientOp.send data_to_send 27, ClientOp.recv data_to_recv 1024,
         ClientOp.send data_to_send 27] demo_client demo_client_os = some (os2, c2) ∧
      c2.get_addr = "192.168.0.18" ∧ c2.get_port = 1234 ∧
      c2.f_servaddr = { sin_family := AF_INET, sin_port := htons 1234,
                        sin_addr := inet_addr (c_str "192.168.0.18") } ∧
      ∃ sent, os2.wire = demo_client_os.wire ++ sent ∧
        ∀ p ∈ sent, p.dst = { sin_family := AF_INET, sin_port := htons 1234,
                              sin_addr := inet_addr (c_str "192.168.0.18") } :=
  client_destination_immutable demo_client_mem demo_server_os "192.168.0.18" 1234
    demo_client_os demo_client
    [ClientOp.send data_to_send 27, ClientOp.recv data_to_recv 1024,
     ClientOp.send data_to_send 27] rfl

end udp_client_server
